import Mathlib

/-!
Verification development for the OCI table handlers

Shallow embedding of the list, get, filter-builder and tag-merging functions of

* `oci/table_oci_artifacts_container_repository.go`
* `oci/table_oci_certificates_management_association.go`
* `oci/table_oci_certificates_management_certificate.go`

Go pointers (`*string`, `*bool`, `*int`) are `Option`s, `nil` being `none`.
String-backed enum fields that the provider requests hold by value are `String`s,
their zero value being `""`.  Go `int`/`int64` are `Int` (the handlers only ever
compare a row limit with the constants 100 and 20, so no overflow is involved).

Effects are explicit: every handler returns the ordered trace of the effects it
performed (session creation, provider requests, items streamed to the consumer)
together with its final status.
-/

namespace Oci

/-! ## Host (plugin SDK) data -/

/-- Go `error` values, identified by their message. -/
abbrev Error := String

/-- The `proto.QualValue` oneof: the value a caller supplied for an equality filter.
(The floating point, inet, timestamp and list alternatives are not read by the handlers
and are left out.) -/
inductive QualValue where
  | StringValue (v : String)
  | Int64Value (v : Int)
  | BoolValue (v : Bool)
  | JsonbValue (v : String)
  deriving DecidableEq, Repr

/-- Generated getter `(*QualValue).GetStringValue`: the string alternative, `""` for
any other alternative and for a `nil` receiver. -/
def GetStringValue : Option QualValue → String
  | some (.StringValue v) => v
  | _ => ""

/-- Generated getter `(*QualValue).GetBoolValue`: the bool alternative, `false` for any
other alternative and for a `nil` receiver. -/
def GetBoolValue : Option QualValue → Bool
  | some (.BoolValue v) => v
  | _ => false

/-- `plugin.KeyColumnEqualsQualMap`, a `map[string]*proto.QualValue`.  The handlers only
index it, so it is represented by its entries and read with `index`. -/
abbrev KeyColumnEqualsQualMap := List (String × QualValue)

/-- Go map indexing `equalQuals[key]`: the stored pointer, `nil` when the key is missing. -/
def KeyColumnEqualsQualMap.index (m : KeyColumnEqualsQualMap) (key : String) :
    Option QualValue :=
  List.lookup key m

/-- The entries of `m` whose key is one of `keys`. -/
def KeyColumnEqualsQualMap.restrict (m : KeyColumnEqualsQualMap) (keys : List String) :
    KeyColumnEqualsQualMap :=
  m.filter (fun kv => decide (kv.1 ∈ keys))

/-- The provider SDK retry policy, which the handlers pass through untouched. -/
structure RetryPolicy where
  MaximumNumberAttempts : Nat
  deriving DecidableEq, Repr

/-- Provider SDK `common.RequestMetadata`. -/
structure RequestMetadata where
  RetryPolicy : Option RetryPolicy := none
  deriving DecidableEq, Repr

/-! ## Provider request objects

Only the fields that the handlers mention are represented. -/

/-- Provider SDK `artifacts.ListContainerRepositoriesRequest`. -/
structure ListContainerRepositoriesRequest where
  CompartmentId : Option String := none
  DisplayName : Option String := none
  IsPublic : Option Bool := none
  LifecycleState : Option String := none
  Limit : Option Int := none
  Page : Option String := none
  RequestMetadata : RequestMetadata := {}
  deriving DecidableEq, Repr

/-- Provider SDK `certificatesmanagement.ListAssociationsRequest`.  `AssociationType` is a
string enum held by value. -/
structure ListAssociationsRequest where
  CompartmentId : Option String := none
  CertificatesResourceId : Option String := none
  AssociatedResourceId : Option String := none
  Name : Option String := none
  AssociationType : String := ""
  Limit : Option Int := none
  Page : Option String := none
  RequestMetadata : RequestMetadata := {}
  deriving DecidableEq, Repr

/-- Provider SDK `certificatesmanagement.ListCertificatesRequest`.  `LifecycleState` is a
string enum held by value. -/
structure ListCertificatesRequest where
  CompartmentId : Option String := none
  LifecycleState : String := ""
  Name : Option String := none
  IssuerCertificateAuthorityId : Option String := none
  Limit : Option Int := none
  Page : Option String := none
  RequestMetadata : RequestMetadata := {}
  deriving DecidableEq, Repr

/-! ## Request filter builders -/

/-- Filter keys read by `buildArtifactsContainerRepositoryFilters`. -/
def containerRepositoryKeys : List String :=
  ["compartment_id", "display_name", "is_public", "lifecycle_state"]

/-- Filter keys read by `buildListCertificatesManagementAssociationFilters`. -/
def associationKeys : List String :=
  ["compartment_id", "certificates_resource_id", "associated_resource_id", "name",
   "association_type"]

/-- Filter keys read by `buildListCertificatesManagementCertificateFilters`. -/
def certificateKeys : List String :=
  ["compartment_id", "lifecycle_state", "name", "issuer_certificate_authority_id"]

/-- `buildArtifactsContainerRepositoryFilters`. -/
def buildArtifactsContainerRepositoryFilters (equalQuals : KeyColumnEqualsQualMap) :
    ListContainerRepositoriesRequest :=
  let request : ListContainerRepositoriesRequest := {}
  let request :=
    if (equalQuals.index "compartment_id").isSome then
      { request with CompartmentId := some (GetStringValue (equalQuals.index "compartment_id")) }
    else request
  let request :=
    if (equalQuals.index "display_name").isSome then
      { request with DisplayName := some (GetStringValue (equalQuals.index "display_name")) }
    else request
  let request :=
    if (equalQuals.index "is_public").isSome then
      { request with IsPublic := some (GetBoolValue (equalQuals.index "is_public")) }
    else request
  let request :=
    if (equalQuals.index "lifecycle_state").isSome then
      { request with LifecycleState := some (GetStringValue (equalQuals.index "lifecycle_state")) }
    else request
  request

/-- `buildListCertificatesManagementAssociationFilters`. -/
def buildListCertificatesManagementAssociationFilters (equalQuals : KeyColumnEqualsQualMap) :
    ListAssociationsRequest :=
  let request : ListAssociationsRequest := {}
  let request :=
    if (equalQuals.index "compartment_id").isSome then
      { request with CompartmentId := some (GetStringValue (equalQuals.index "compartment_id")) }
    else request
  let request :=
    if (equalQuals.index "certificates_resource_id").isSome then
      { request with
        CertificatesResourceId :=
          some (GetStringValue (equalQuals.index "certificates_resource_id")) }
    else request
  let request :=
    if (equalQuals.index "associated_resource_id").isSome then
      { request with
        AssociatedResourceId := some (GetStringValue (equalQuals.index "associated_resource_id")) }
    else request
  let request :=
    if (equalQuals.index "name").isSome then
      { request with Name := some (GetStringValue (equalQuals.index "name")) }
    else request
  let request :=
    if (equalQuals.index "association_type").isSome then
      { request with AssociationType := GetStringValue (equalQuals.index "association_type") }
    else request
  request

/-- `buildListCertificatesManagementCertificateFilters` (the source assigns
`LifecycleState` in two consecutive, identical blocks; both are kept). -/
def buildListCertificatesManagementCertificateFilters (equalQuals : KeyColumnEqualsQualMap) :
    ListCertificatesRequest :=
  let request : ListCertificatesRequest := {}
  let request :=
    if (equalQuals.index "compartment_id").isSome then
      { request with CompartmentId := some (GetStringValue (equalQuals.index "compartment_id")) }
    else request
  let request :=
    if (equalQuals.index "lifecycle_state").isSome then
      { request with LifecycleState := GetStringValue (equalQuals.index "lifecycle_state") }
    else request
  let request :=
    if (equalQuals.index "lifecycle_state").isSome then
      { request with LifecycleState := GetStringValue (equalQuals.index "lifecycle_state") }
    else request
  let request :=
    if (equalQuals.index "name").isSome then
      { request with Name := some (GetStringValue (equalQuals.index "name")) }
    else request
  let request :=
    if (equalQuals.index "issuer_certificate_authority_id").isSome then
      { request with
        IssuerCertificateAuthorityId :=
          some (GetStringValue (equalQuals.index "issuer_certificate_authority_id")) }
    else request
  request

/-- What a pointer-typed request field must hold for filter key `key`: a pointer to the
string read from the filter when the key is present, `nil` otherwise. -/
def stringField (F : KeyColumnEqualsQualMap) (key : String) : Option String :=
  (F.index key).map (fun q => GetStringValue (some q))

/-- What a by-value enum request field must hold for filter key `key`: the string read
from the filter when the key is present, the zero value `""` otherwise. -/
def enumField (F : KeyColumnEqualsQualMap) (key : String) : String :=
  match F.index key with
  | some q => GetStringValue (some q)
  | none => ""

/-- What the pointer-typed boolean request field must hold for filter key `key`. -/
def boolField (F : KeyColumnEqualsQualMap) (key : String) : Option Bool :=
  (F.index key).map (fun q => GetBoolValue (some q))

/-! ## Effects, sessions and host query state -/

/-- One effect performed by a handler, in program order. -/
inductive Event (Req Item : Type) where
  /-- a call of the service constructor (`artifactsService`, `certificatesManagementService`) -/
  | session (region : String)
  /-- a call of the provider client with request `r` -/
  | request (r : Req)
  /-- `d.StreamListItem(ctx, x)` -/
  | emit (x : Item)
  deriving DecidableEq, Repr

/-- How a handler run ends: with the Go return pair `(result, err)`, with a run-time
panic, or, for the pagination loop only, with the iteration allowance of the model used up
before the loop ended. -/
inductive Status (α : Type) where
  | returned (result : Option α) (err : Option Error)
  | panicked
  | outOfFuel
  deriving DecidableEq, Repr

/-- Effects performed and final status of one handler run. -/
structure Outcome (Req Item α : Type) where
  trace : List (Event Req Item)
  status : Status α
  deriving DecidableEq, Repr

/-- The items handed to `d.StreamListItem`, in call order. -/
def emitted {Req Item : Type} : List (Event Req Item) → List Item
  | [] => []
  | .emit x :: t => x :: emitted t
  | _ :: t => emitted t

/-- The provider requests issued, in order. -/
def requests {Req Item : Type} : List (Event Req Item) → List Req
  | [] => []
  | .request r :: t => r :: requests t
  | _ :: t => requests t

/-- The number of service-constructor calls. -/
def sessions {Req Item : Type} : List (Event Req Item) → Nat
  | [] => 0
  | .session _ :: t => sessions t + 1
  | _ :: t => sessions t

/-- A provider list response: the page of items and the optional next-page cursor
`OpcNextPage`. -/
structure ListResponse (Item : Type) where
  Items : List Item
  OpcNextPage : Option String
  deriving DecidableEq, Repr

/-- `plugin.GetMatrixItem(ctx)`: the region and compartment of the current iteration. -/
structure MatrixItem where
  region : String
  compartment : String
  deriving DecidableEq, Repr

/-- The parts of `plugin.QueryData` the handlers read.
`RowsRemaining n` is what `d.QueryStatus.RowsRemaining(ctx)` answers when it is called
after the `n`-th `StreamListItem` of the run; `retryPolicy` is the value of
`getDefaultRetryPolicy(d.Connection)`. -/
structure QueryData where
  KeyColumnQuals : KeyColumnEqualsQualMap
  Limit : Option Int
  RowsRemaining : Nat → Nat
  retryPolicy : Option RetryPolicy

/-- The caller's row budget seen as a counter: `B` rows are wanted and every streamed
item takes one off, so after `n` streamed items `B - n` remain (never below zero). -/
def budgetCounter (B : Nat) : Nat → Nat := fun n => B - n

/-- Modelled from the spec: the host side of `d.StreamListItem` under a row budget
(`StreamListItem` and `QueryStatus` belong to the plugin SDK, which is not among the
sources).  The budget is a counter of remaining rows; a call of `StreamListItem` hands its
item to the consumer and takes one off the counter while rows remain, and hands nothing to
the consumer once no row remains.  `hostDeliver rows calls` is what reaches the consumer
when `rows` rows remain and the handler makes the calls `calls`. -/
def hostDeliver {Item : Type} : Nat → List Item → List Item
  | 0, _ => []
  | _ + 1, [] => []
  | rows + 1, x :: rest => x :: hostDeliver rows rest

/-- Modelled from the spec: the rows that remain in the host's counter after the calls
`calls` of `StreamListItem`, `rows` rows remaining before them. -/
def hostRemaining {Item : Type} : Nat → List Item → Nat
  | 0, _ => 0
  | rows + 1, [] => rows + 1
  | rows + 1, _ :: rest => hostRemaining rows rest

/-- Go `strings.HasPrefix`. -/
def HasPrefix (s pre : String) : Bool := pre.data.isPrefixOf s.data

/-! ## Provider records -/

/-- Go `interface{}` values stored in tag maps. -/
inductive Value where
  | string (s : String)
  | number (n : Int)
  | bool (b : Bool)
  | null
  deriving DecidableEq, Repr

/-- A Go `map[string]V`, given by its entries in the order in which a `range` loop visits
them (an order Go leaves unspecified).  The keys of a map are pairwise distinct, which is
`GoMap.WF`; the functions below do not need it, the theorems that do ask for it. -/
abbrev GoMap (V : Type) := List (String × V)

/-- Keys of a Go map are pairwise distinct. -/
def GoMap.WF {V : Type} (m : GoMap V) : Prop := (m.map Prod.fst).Nodup

instance GoMap.decidableWF {V : Type} (m : GoMap V) : Decidable m.WF :=
  inferInstanceAs (Decidable (m.map Prod.fst).Nodup)

/-- Go map indexing `m[key]`. -/
def GoMap.index {V : Type} (m : GoMap V) (key : String) : Option V := List.lookup key m

/-- Go map assignment `m[key] = v`: overwrite the entry of `key` if there is one, add an
entry otherwise. -/
def GoMap.set {V : Type} : GoMap V → String → V → GoMap V
  | [], key, v => [(key, v)]
  | (a, b) :: rest, key, v => if a = key then (a, v) :: rest else (a, b) :: GoMap.set rest key v

/-- The keys of a Go map. -/
def GoMap.keys {V : Type} (m : GoMap V) : List String := m.map Prod.fst

/-- `artifacts.ContainerRepositorySummary`. -/
structure ContainerRepositorySummary where
  Id : Option String
  deriving DecidableEq, Repr

/-- `artifacts.ContainerRepository`. -/
structure ContainerRepository where
  Id : Option String
  deriving DecidableEq, Repr

/-- `certificatesmanagement.AssociationSummary`. -/
structure AssociationSummary where
  Id : Option String
  deriving DecidableEq, Repr

/-- `certificatesmanagement.Association`. -/
structure Association where
  Id : Option String
  deriving DecidableEq, Repr

/-- `certificatesmanagement.CertificateSummary`. -/
structure CertificateSummary where
  Id : Option String
  FreeformTags : Option (GoMap String)
  DefinedTags : Option (GoMap (GoMap Value))
  deriving DecidableEq, Repr

/-- `certificatesmanagement.Certificate`. -/
structure Certificate where
  Id : Option String
  FreeformTags : Option (GoMap String)
  DefinedTags : Option (GoMap (GoMap Value))
  deriving DecidableEq, Repr

/-- The dynamic type and value of a non-nil `interface{}` hydrate item. -/
inductive HydrateItem where
  | containerRepositorySummary (obj : ContainerRepositorySummary)
  | containerRepository (obj : ContainerRepository)
  | associationSummary (obj : AssociationSummary)
  | association (obj : Association)
  | certificateSummary (obj : CertificateSummary)
  | certificate (obj : Certificate)
  deriving DecidableEq, Repr

/-- `plugin.HydrateData`: `Item` is `nil` in a get call by raw identifier. -/
structure HydrateData where
  Item : Option HydrateItem
  deriving DecidableEq, Repr

/-- `transform.TransformData`. -/
structure TransformData where
  HydrateItem : Option HydrateItem
  deriving DecidableEq, Repr

/-- Provider SDK `artifacts.GetContainerRepositoryRequest`. -/
structure GetContainerRepositoryRequest where
  RepositoryId : Option String := none
  RequestMetadata : RequestMetadata := {}
  deriving DecidableEq, Repr

/-- Provider SDK `certificatesmanagement.GetAssociationRequest`. -/
structure GetAssociationRequest where
  AssociationId : Option String := none
  RequestMetadata : RequestMetadata := {}
  deriving DecidableEq, Repr

/-- Provider SDK `certificatesmanagement.GetCertificateRequest`. -/
structure GetCertificateRequest where
  CertificateId : Option String := none
  RequestMetadata : RequestMetadata := {}
  deriving DecidableEq, Repr

/-- The session `artifactsService` yields: its client answers list calls (the first
argument counts the list calls already made in the run) and get calls. -/
structure ArtifactsSession where
  ListContainerRepositories :
    Nat → ListContainerRepositoriesRequest → Except Error (ListResponse ContainerRepositorySummary)
  GetContainerRepository : GetContainerRepositoryRequest → Except Error ContainerRepository

/-- The session `certificatesManagementService` yields. -/
structure CertificatesManagementSession where
  ListAssociations :
    Nat → ListAssociationsRequest → Except Error (ListResponse AssociationSummary)
  GetAssociation : GetAssociationRequest → Except Error Association
  ListCertificates :
    Nat → ListCertificatesRequest → Except Error (ListResponse CertificateSummary)
  GetCertificate : GetCertificateRequest → Except Error Certificate

/-! ## Paginated listers -/

/-- The inner loop `for _, respItem := range response.Items`: stream the item, then ask
for the remaining rows and return from the handler when none remain.  `n` is the number of
items streamed before the loop; the flag tells whether the handler returned. -/
def streamItems (Req : Type) {Item : Type} (RowsRemaining : Nat → Nat) :
    List Item → Nat → List (Event Req Item) × Bool
  | [], _ => ([], false)
  | respItem :: rest, n =>
    if RowsRemaining (n + 1) = 0 then ([.emit respItem], true)
    else
      let r := streamItems Req RowsRemaining rest (n + 1)
      (.emit respItem :: r.1, r.2)

/-- The loop `for pagesLeft` shared, up to the client method called, by the three list
handlers.  `fuel` bounds the number of iterations, `calls` counts the provider calls made
so far, `n` the items streamed so far; `setPage` is the assignment `request.Page = ...`. -/
def pageLoop {Req Item : Type} (call : Nat → Req → Except Error (ListResponse Item))
    (setPage : Req → Option String → Req) (RowsRemaining : Nat → Nat) :
    Nat → Nat → Nat → Req → Outcome Req Item Unit
  | 0, _, _, _ => ⟨[], .outOfFuel⟩
  | fuel + 1, calls, n, request =>
    match call calls request with
    | .error err => ⟨[.request request], .returned none (some err)⟩
    | .ok response =>
      let s := streamItems Req RowsRemaining response.Items n
      if s.2 then ⟨.request request :: s.1, .returned none none⟩
      else
        match response.OpcNextPage with
        | some page =>
          let r := pageLoop call setPage RowsRemaining fuel (calls + 1)
            (n + response.Items.length) (setPage request (some page))
          ⟨.request request :: (s.1 ++ r.trace), r.status⟩
        | none => ⟨.request request :: s.1, .returned none none⟩

/-- `listArtifactsContainerRepositories`. -/
def listArtifactsContainerRepositories
    (artifactsService : String → Except Error ArtifactsSession)
    (d : QueryData) (m : MatrixItem) (fuel : Nat) :
    Outcome ListContainerRepositoriesRequest ContainerRepositorySummary Unit :=
  let equalQuals := d.KeyColumnQuals
  if (equalQuals.index "compartment_id").isSome
      && m.compartment != GetStringValue (equalQuals.index "compartment_id") then
    ⟨[], .returned none none⟩
  else
    match artifactsService m.region with
    | .error err => ⟨[.session m.region], .returned none (some err)⟩
    | .ok session =>
      let request := buildArtifactsContainerRepositoryFilters equalQuals
      let request := { request with CompartmentId := some m.compartment }
      let request := { request with Limit := some 100 }
      let request := { request with RequestMetadata := { RetryPolicy := d.retryPolicy } }
      let request :=
        match d.Limit with
        | some limit => if limit < 100 then { request with Limit := some limit } else request
        | none => request
      let r := pageLoop session.ListContainerRepositories
        (fun req page => { req with Page := page }) d.RowsRemaining fuel 0 0 request
      ⟨.session m.region :: r.trace, r.status⟩

/-- `listCertificatesManagementAssociations`. -/
def listCertificatesManagementAssociations
    (certificatesManagementService : String → Except Error CertificatesManagementSession)
    (d : QueryData) (m : MatrixItem) (fuel : Nat) :
    Outcome ListAssociationsRequest AssociationSummary Unit :=
  let equalQuals := d.KeyColumnQuals
  if (equalQuals.index "compartment_id").isSome
      && m.compartment != GetStringValue (equalQuals.index "compartment_id") then
    ⟨[], .returned none none⟩
  else
    match certificatesManagementService m.region with
    | .error err => ⟨[.session m.region], .returned none (some err)⟩
    | .ok session =>
      let request := buildListCertificatesManagementAssociationFilters equalQuals
      let request := { request with CompartmentId := some m.compartment }
      let request := { request with Limit := some 20 }
      let request := { request with RequestMetadata := { RetryPolicy := d.retryPolicy } }
      let request :=
        match d.Limit with
        | some limit => if limit < 20 then { request with Limit := some limit } else request
        | none => request
      let r := pageLoop session.ListAssociations
        (fun req page => { req with Page := page }) d.RowsRemaining fuel 0 0 request
      ⟨.session m.region :: r.trace, r.status⟩

/-- `listCertificatesManagementCertificates`. -/
def listCertificatesManagementCertificates
    (certificatesManagementService : String → Except Error CertificatesManagementSession)
    (d : QueryData) (m : MatrixItem) (fuel : Nat) :
    Outcome ListCertificatesRequest CertificateSummary Unit :=
  let equalQuals := d.KeyColumnQuals
  if (equalQuals.index "compartment_id").isSome
      && m.compartment != GetStringValue (equalQuals.index "compartment_id") then
    ⟨[], .returned none none⟩
  else
    match certificatesManagementService m.region with
    | .error err => ⟨[.session m.region], .returned none (some err)⟩
    | .ok session =>
      let request := buildListCertificatesManagementCertificateFilters equalQuals
      let request := { request with CompartmentId := some m.compartment }
      let request := { request with Limit := some 20 }
      let request := { request with RequestMetadata := { RetryPolicy := d.retryPolicy } }
      let request :=
        match d.Limit with
        | some limit => if limit < 20 then { request with Limit := some limit } else request
        | none => request
      let r := pageLoop session.ListCertificates
        (fun req page => { req with Page := page }) d.RowsRemaining fuel 0 0 request
      ⟨.session m.region :: r.trace, r.status⟩

/-! ## Single-item fetchers -/

/-- The tail of `getArtifactsContainerRepository` from the check `if id == ""` on. -/
def getArtifactsContainerRepositoryById
    (artifactsService : String → Except Error ArtifactsSession)
    (d : QueryData) (m : MatrixItem) (id : String) :
    Outcome GetContainerRepositoryRequest Empty ContainerRepository :=
  if id = "" then ⟨[], .returned none none⟩
  else
    match artifactsService m.region with
    | .error err => ⟨[.session m.region], .returned none (some err)⟩
    | .ok session =>
      let request : GetContainerRepositoryRequest :=
        { RepositoryId := some id, RequestMetadata := { RetryPolicy := d.retryPolicy } }
      match session.GetContainerRepository request with
      | .error err => ⟨[.session m.region, .request request], .returned none (some err)⟩
      | .ok response => ⟨[.session m.region, .request request], .returned (some response) none⟩

/-- `getArtifactsContainerRepository`.  The type assertion on `h.Item` and the
dereference `*...Id` panic on an item of another type and on a `nil` id. -/
def getArtifactsContainerRepository
    (artifactsService : String → Except Error ArtifactsSession)
    (d : QueryData) (h : HydrateData) (m : MatrixItem) :
    Outcome GetContainerRepositoryRequest Empty ContainerRepository :=
  match h.Item with
  | some (.containerRepositorySummary obj) =>
    match obj.Id with
    | some id => getArtifactsContainerRepositoryById artifactsService d m id
    | none => ⟨[], .panicked⟩
  | some _ => ⟨[], .panicked⟩
  | none =>
    let id := GetStringValue (d.KeyColumnQuals.index "id")
    if !HasPrefix m.compartment "ocid1.tenancy.oc1" then ⟨[], .returned none none⟩
    else getArtifactsContainerRepositoryById artifactsService d m id

/-- `buildGetCertificatesManagementAssociationFilters`; `none` is the panic of the type
assertion on an item of another type. -/
def buildGetCertificatesManagementAssociationFilters (equalQuals : KeyColumnEqualsQualMap)
    (h : HydrateData) : Option GetAssociationRequest :=
  let request : GetAssociationRequest := {}
  match h.Item with
  | some (.associationSummary obj) => some { request with AssociationId := obj.Id }
  | some _ => none
  | none => some { request with AssociationId := some (GetStringValue (equalQuals.index "id")) }

/-- `getCertificatesManagementAssociation`. -/
def getCertificatesManagementAssociation
    (certificatesManagementService : String → Except Error CertificatesManagementSession)
    (d : QueryData) (h : HydrateData) (m : MatrixItem) :
    Outcome GetAssociationRequest Empty Association :=
  if !HasPrefix m.compartment "ocid1.tenancy.oc1" then ⟨[], .returned none none⟩
  else
    match buildGetCertificatesManagementAssociationFilters d.KeyColumnQuals h with
    | none => ⟨[], .panicked⟩
    | some request =>
      match certificatesManagementService m.region with
      | .error err => ⟨[.session m.region], .returned none (some err)⟩
      | .ok session =>
        let request := { request with RequestMetadata := { RetryPolicy := d.retryPolicy } }
        match session.GetAssociation request with
        | .error err => ⟨[.session m.region, .request request], .returned none (some err)⟩
        | .ok response =>
          ⟨[.session m.region, .request request], .returned (some response) none⟩

/-- `buildGetCertificatesManagementCertificateFilters`; `none` is the panic of the type
assertion on an item of another type. -/
def buildGetCertificatesManagementCertificateFilters (equalQuals : KeyColumnEqualsQualMap)
    (h : HydrateData) : Option GetCertificateRequest :=
  let request : GetCertificateRequest := {}
  match h.Item with
  | some (.certificateSummary obj) => some { request with CertificateId := obj.Id }
  | some _ => none
  | none => some { request with CertificateId := some (GetStringValue (equalQuals.index "id")) }

/-- `getCertificatesManagementCertificate`. -/
def getCertificatesManagementCertificate
    (certificatesManagementService : String → Except Error CertificatesManagementSession)
    (d : QueryData) (h : HydrateData) (m : MatrixItem) :
    Outcome GetCertificateRequest Empty Certificate :=
  if h.Item.isNone && !HasPrefix m.compartment "ocid1.tenancy.oc1" then
    ⟨[], .returned none none⟩
  else
    match buildGetCertificatesManagementCertificateFilters d.KeyColumnQuals h with
    | none => ⟨[], .panicked⟩
    | some request =>
      match certificatesManagementService m.region with
      | .error err => ⟨[.session m.region], .returned none (some err)⟩
      | .ok session =>
        let request := { request with RequestMetadata := { RetryPolicy := d.retryPolicy } }
        match session.GetCertificate request with
        | .error err => ⟨[.session m.region, .request request], .returned none (some err)⟩
        | .ok response =>
          ⟨[.session m.region, .request request], .returned (some response) none⟩

/-! ## Tag merging -/

/-- The loop `for k, v := range freeformTags { tags[k] = v }`. -/
def copyFreeformTags (freeformTags : GoMap String) (tags : GoMap Value) : GoMap Value :=
  freeformTags.foldl (fun t kv => t.set kv.1 (.string kv.2)) tags

/-- The loop `for key, value := range v { tags[key] = value }` over one namespace. -/
def copyNamespace (v : GoMap Value) (tags : GoMap Value) : GoMap Value :=
  v.foldl (fun t kv => t.set kv.1 kv.2) tags

/-- The loop `for _, v := range definedTags` over the namespaces. -/
def copyDefinedTags (definedTags : GoMap (GoMap Value)) (tags : GoMap Value) : GoMap Value :=
  definedTags.foldl (fun t ns => copyNamespace ns.2 t) tags

/-- `certificatesManagementCertificateTags`: the pair `(tags, err)` it returns, a `nil`
map being `none`. -/
def certificatesManagementCertificateTags (d : TransformData) :
    Option (GoMap Value) × Option Error :=
  let ft : Option (GoMap String) × Option (GoMap (GoMap Value)) :=
    match d.HydrateItem with
    | some (.certificate obj) => (obj.FreeformTags, obj.DefinedTags)
    | some (.certificateSummary obj) => (obj.FreeformTags, obj.DefinedTags)
    | _ => (none, none)
  let freeformTags := ft.1
  let definedTags := ft.2
  let tags : Option (GoMap Value) := none
  let tags :=
    match freeformTags with
    | some f => some (copyFreeformTags f [])
    | none => tags
  let tags :=
    match definedTags with
    | some dt =>
      let tags := match tags with
        | none => ([] : GoMap Value)
        | some t => t
      some (copyDefinedTags dt tags)
    | none => tags
  (tags, none)

/-! ## Connection configuration (`oci/connection_config.go`) -/

/-- The struct `ociConfig`; a `nil` slice of regions is `none`. -/
structure ociConfig where
  Auth : Option String := none
  ConfigPath : Option String := none
  Fingerprint : Option String := none
  PrivateKey : Option String := none
  PrivateKeyPassword : Option String := none
  PrivateKeyPath : Option String := none
  Profile : Option String := none
  Regions : Option (List String) := none
  TenancyOCID : Option String := none
  UserOCID : Option String := none
  deriving DecidableEq, Repr

/-- The dynamic type and value of a non-nil `interface{}` stored as connection config:
an `ociConfig` value, a `*ociConfig` (possibly a nil pointer), or a value of any other
type. -/
inductive ConfigValue where
  | value (config : ociConfig)
  | pointer (config : Option ociConfig)
  | other (description : String)
  deriving DecidableEq, Repr

/-- The parts of `plugin.Connection` that `GetConfig` reads: `Config` is `nil` or holds a
value. -/
structure Connection where
  Name : String
  Config : Option ConfigValue
  deriving DecidableEq, Repr

/-- `ConfigInstance`: an `interface{}` holding `&ociConfig{}`. -/
def ConfigInstance : ConfigValue := .pointer (some {})

/-- `GetConfig`; `connection` is `none` for a `nil` pointer.  The comma-ok type assertion
`connection.Config.(ociConfig)` gives the zero value when the stored value is not an
`ociConfig`. -/
def GetConfig (connection : Option Connection) : ociConfig :=
  match connection with
  | none => {}
  | some conn =>
    match conn.Config with
    | none => {}
    | some stored =>
      match stored with
      | .value config => config
      | _ => {}

/-! ## Vocabulary for statements about page sequences -/

/-- The responses of a finite cursor chain: every page of `nonfinal` comes with its items
and the cursor of the next page, the final page `last` has no cursor. -/
def chainPages {Item : Type} (nonfinal : List (List Item × String)) (last : List Item) :
    List (ListResponse Item) :=
  nonfinal.map (fun p => ⟨p.1, some p.2⟩) ++ [⟨last, none⟩]

/-- The cursors that lead to the pages of a chain, the first page being reached by
`first`. -/
def chainCursors {Item : Type} (first : Option String) (nonfinal : List (List Item × String)) :
    List (Option String) :=
  first :: nonfinal.map (fun p => some p.2)

/-- All items of a chain, page after page, each page in response order. -/
def chainItems {Item : Type} (nonfinal : List (List Item × String)) (last : List Item) :
    List Item :=
  (nonfinal.map (fun p => p.1)).flatten ++ last

/-- The provider serves the chain: its call number `calls + k`, when it carries the cursor
that leads to page `k`, is answered with page `k`. -/
def AnswersChain {Req Item : Type} (call : Nat → Req → Except Error (ListResponse Item))
    (getPage : Req → Option String) (first : Option String)
    (nonfinal : List (List Item × String)) (last : List Item) (calls : Nat) : Prop :=
  ∀ (k : Nat) (resp : ListResponse Item) (c : Option String) (r : Req),
    (chainPages nonfinal last)[k]? = some resp →
    (chainCursors first nonfinal)[k]? = some c →
    getPage r = c → call (calls + k) r = .ok resp

/-- The remaining rows are never seen to be zero while the next `total` items are
streamed, `n` items having been streamed before. -/
def BudgetLasts (RowsRemaining : Nat → Nat) (n total : Nat) : Prop :=
  ∀ i : Nat, 0 < i → i ≤ total → RowsRemaining (n + i) ≠ 0

/-- The items of the responses the provider gives to the requests `rs`, the first of
which is call number `k`; a failed call contributes nothing. -/
def responseItems {Req Item : Type} (call : Nat → Req → Except Error (ListResponse Item)) :
    Nat → List Req → List Item
  | _, [] => []
  | k, r :: rs =>
    (match call k r with
      | .ok resp => resp.Items
      | .error _ => []) ++ responseItems call (k + 1) rs

/-- What a fetcher returns for the provider's answer to its get request: the record with
no error when the call succeeded, the provider's error with no record when it failed. -/
def returnOf {α : Type} : Except Error α → Status α
  | .ok record => .returned (some record) none
  | .error err => .returned none (some err)

/-! ## Sample inputs -/

/-- A container-repository provider with two pages of two items each. -/
def sampleArtifactsSession : ArtifactsSession where
  ListContainerRepositories := fun _ request =>
    match request.Page with
    | none => .ok ⟨[⟨some "repo1"⟩, ⟨some "repo2"⟩], some "page2"⟩
    | some _ => .ok ⟨[⟨some "repo3"⟩, ⟨some "repo4"⟩], none⟩
  GetContainerRepository := fun request => .ok ⟨request.RepositoryId⟩

/-- A certificates provider with two pages of two items each for both list endpoints. -/
def sampleCertificatesSession : CertificatesManagementSession where
  ListAssociations := fun _ request =>
    match request.Page with
    | none => .ok ⟨[⟨some "assoc1"⟩, ⟨some "assoc2"⟩], some "page2"⟩
    | some _ => .ok ⟨[⟨some "assoc3"⟩, ⟨some "assoc4"⟩], none⟩
  GetAssociation := fun request => .ok ⟨request.AssociationId⟩
  ListCertificates := fun _ request =>
    match request.Page with
    | none => .ok ⟨[⟨some "cert1", none, none⟩, ⟨some "cert2", none, none⟩], some "page2"⟩
    | some _ => .ok ⟨[⟨some "cert3", none, none⟩, ⟨some "cert4", none, none⟩], none⟩
  GetCertificate := fun request => .ok ⟨request.CertificateId, none, none⟩

/-- Query data with the given filters, no `LIMIT`, and a row budget of `B`. -/
def sampleQuery (quals : KeyColumnEqualsQualMap) (B : Nat) : QueryData where
  KeyColumnQuals := quals
  Limit := none
  RowsRemaining := budgetCounter B
  retryPolicy := some ⟨3⟩

/-- The matrix entry used in the sample runs. -/
def sampleMatrix : MatrixItem := ⟨"us-ashburn-1", "ocid1.compartment.oc1..b"⟩

/-- The first request of the sample container-repository run. -/
def sampleRepositoryRequest : ListContainerRepositoriesRequest :=
  { CompartmentId := some "ocid1.compartment.oc1..b", Limit := some 100,
    RequestMetadata := { RetryPolicy := some ⟨3⟩ } }

/-- The first request of the sample association run. -/
def sampleAssociationRequest : ListAssociationsRequest :=
  { CompartmentId := some "ocid1.compartment.oc1..b", Limit := some 20,
    RequestMetadata := { RetryPolicy := some ⟨3⟩ } }

/-- The first request of the sample certificate run. -/
def sampleCertificateRequest : ListCertificatesRequest :=
  { CompartmentId := some "ocid1.compartment.oc1..b", Limit := some 20,
    RequestMetadata := { RetryPolicy := some ⟨3⟩ } }

/-- What the sample container-repository run does before it streams its third item. -/
def sampleRepositoryPrefix :
    List (Event ListContainerRepositoriesRequest ContainerRepositorySummary) :=
  [.session "us-ashburn-1", .request sampleRepositoryRequest,
    .emit ⟨some "repo1"⟩, .emit ⟨some "repo2"⟩,
    .request { sampleRepositoryRequest with Page := some "page2" }]

/-- What the sample association run does before it streams its third item. -/
def sampleAssociationPrefix : List (Event ListAssociationsRequest AssociationSummary) :=
  [.session "us-ashburn-1", .request sampleAssociationRequest,
    .emit ⟨some "assoc1"⟩, .emit ⟨some "assoc2"⟩,
    .request { sampleAssociationRequest with Page := some "page2" }]

/-- What the sample certificate run does before it streams its third item. -/
def sampleCertificatePrefix : List (Event ListCertificatesRequest CertificateSummary) :=
  [.session "us-ashburn-1", .request sampleCertificateRequest,
    .emit ⟨some "cert1", none, none⟩, .emit ⟨some "cert2", none, none⟩,
    .request { sampleCertificateRequest with Page := some "page2" }]

/-- A container-repository provider whose second page request fails. -/
def failingArtifactsSession : ArtifactsSession where
  ListContainerRepositories := fun _ request =>
    match request.Page with
    | none => .ok ⟨[⟨some "repo1"⟩, ⟨some "repo2"⟩], some "page2"⟩
    | some _ => .error "ServiceUnavailable"
  GetContainerRepository := fun _ => .error "ServiceUnavailable"

/-- A certificates provider whose second page request fails on both list endpoints. -/
def failingCertificatesSession : CertificatesManagementSession where
  ListAssociations := fun _ request =>
    match request.Page with
    | none => .ok ⟨[⟨some "assoc1"⟩, ⟨some "assoc2"⟩], some "page2"⟩
    | some _ => .error "ServiceUnavailable"
  GetAssociation := fun _ => .error "ServiceUnavailable"
  ListCertificates := fun _ request =>
    match request.Page with
    | none => .ok ⟨[⟨some "cert1", none, none⟩, ⟨some "cert2", none, none⟩], some "page2"⟩
    | some _ => .error "ServiceUnavailable"
  GetCertificate := fun _ => .error "ServiceUnavailable"

/-- The tenancy root compartment used in the sample get calls. -/
def rootMatrix : MatrixItem := ⟨"us-ashburn-1", "ocid1.tenancy.oc1..aaaa"⟩

/-- A get call by raw identifier: no hydrated item. -/
def rawGet : HydrateData := ⟨none⟩

/-- Free-form tags of the sample certificate. -/
def sampleFreeformTags : GoMap String := [("env", "prod"), ("owner", "alice")]

/-- Defined tags of the sample certificate: one namespace, which also has a key `owner`. -/
def sampleDefinedTags : GoMap (GoMap Value) :=
  [("Operations", [("CostCenter", .string "42"), ("owner", .string "bob")])]

/-- Two namespaces with the same inner key, `Operations` inserted first, `Finance` last. -/
def collidingDefinedTags : GoMap (GoMap Value) :=
  [("Operations", [("CostCenter", .string "42")]), ("Finance", [("CostCenter", .string "7")])]

/-- The same map as `collidingDefinedTags`, visited by `range` in the other order. -/
def collidingDefinedTagsOtherVisit : GoMap (GoMap Value) :=
  [("Finance", [("CostCenter", .string "7")]), ("Operations", [("CostCenter", .string "42")])]

/-- Query data with the given filters, `LIMIT L`, and a row budget of `B`. -/
def sampleLimitedQuery (quals : KeyColumnEqualsQualMap) (L : Int) (B : Nat) : QueryData where
  KeyColumnQuals := quals
  Limit := some L
  RowsRemaining := budgetCounter B
  retryPolicy := some ⟨3⟩

/-! ## Helper lemmas -/

theorem index_restrict (F : KeyColumnEqualsQualMap) (keys : List String) (k : String)
    (hk : k ∈ keys) : (F.restrict keys).index k = F.index k := by
  induction F with
  | nil => rfl
  | cons kv rest ih =>
    obtain ⟨a, v⟩ := kv
    unfold KeyColumnEqualsQualMap.restrict KeyColumnEqualsQualMap.index at *
    by_cases ha : a ∈ keys
    · simp only [List.filter_cons, ha, decide_True, if_true, List.lookup_cons]
      cases hka : k == a
      · simpa using ih
      · rfl
    · have hne : (k == a) = false := by
        apply beq_false_of_ne
        rintro rfl
        exact ha hk
      simp only [List.filter_cons, ha, decide_False, List.lookup_cons, hne]
      simpa using ih

@[simp] theorem emitted_append {Req Item : Type} (a b : List (Event Req Item)) :
    emitted (a ++ b) = emitted a ++ emitted b := by
  induction a with
  | nil => rfl
  | cons e t ih => cases e <;> simp [emitted, ih]

@[simp] theorem requests_append {Req Item : Type} (a b : List (Event Req Item)) :
    requests (a ++ b) = requests a ++ requests b := by
  induction a with
  | nil => rfl
  | cons e t ih => cases e <;> simp [requests, ih]

/-- Streaming a page against a budget counter: the running count stays within
`max B (n + 1)`, and a page that did not end the run was streamed whole and left the
count strictly below the budget. -/
theorem streamItems_budget {Req Item : Type} (B : Nat) (items : List Item) :
    ∀ n : Nat,
      n + (emitted (streamItems Req (budgetCounter B) items n).1).length
          ≤ max B (n + 1)
      ∧ ((streamItems Req (budgetCounter B) items n).2 = false →
          (emitted (streamItems Req (budgetCounter B) items n).1).length
              = items.length
          ∧ (items ≠ [] → n + items.length < B)) := by
  induction items with
  | nil =>
    intro n
    simp [streamItems, emitted]
  | cons x rest ih =>
    intro n
    unfold streamItems
    by_cases h0 : budgetCounter B (n + 1) = 0
    · simp only [h0, if_true]
      simp [emitted]
    · simp only [h0, if_false]
      have hB : n + 1 < B := by
        unfold budgetCounter at h0
        omega
      obtain ⟨h1, h2⟩ := ih (n + 1)
      refine ⟨?_, ?_⟩
      · simp only [emitted, List.length_cons]
        have : max B (n + 1 + 1) = B := by omega
        rw [this] at h1
        omega
      · intro hs
        obtain ⟨h3, h4⟩ := h2 hs
        refine ⟨by simp only [emitted, List.length_cons, h3], ?_⟩
        intro _
        by_cases hr : rest = []
        · subst hr
          simp only [List.length_cons, List.length_nil]
          omega
        · have := h4 hr
          simp only [List.length_cons]
          omega

/-- The pagination loop against a budget counter never lets the running count of
streamed items pass `max B (n + 1)`. -/
theorem pageLoop_budget {Req Item : Type}
    (call : Nat → Req → Except Error (ListResponse Item))
    (setPage : Req → Option String → Req) (B : Nat) :
    ∀ (fuel calls n : Nat) (request : Req),
      n + (emitted (pageLoop call setPage (budgetCounter B) fuel calls n request).trace).length
        ≤ max B (n + 1) := by
  intro fuel
  induction fuel with
  | zero =>
    intro calls n request
    simp [pageLoop, emitted]
  | succ fuel ih =>
    intro calls n request
    unfold pageLoop
    cases hc : call calls request with
    | error err => simp [emitted]
    | ok response =>
      simp only
      obtain ⟨h1, h2⟩ := @streamItems_budget Req Item B response.Items n
      by_cases hs : (streamItems Req (budgetCounter B) response.Items n).2 = true
      · simp only [hs, if_true, emitted]
        exact h1
      · have hs' : (streamItems Req (budgetCounter B) response.Items n).2 = false := by
          simpa using hs
        simp only [hs', Bool.false_eq_true, if_false]
        obtain ⟨h3, h4⟩ := h2 hs'
        cases hp : response.OpcNextPage with
        | none =>
          simp only [emitted]
          exact h1
        | some page =>
          simp only [emitted, emitted_append, List.length_append, h3]
          have hrec := ih (calls + 1) (n + response.Items.length) (setPage request (some page))
          by_cases hi : response.Items = []
          · rw [hi] at hrec ⊢
            simpa using hrec
          · have := h4 hi
            omega

/-- A page that did not end the run was streamed whole. -/
theorem streamItems_not_stopped {Req Item : Type} (RowsRemaining : Nat → Nat)
    (items : List Item) :
    ∀ n : Nat, (streamItems Req RowsRemaining items n).2 = false →
      (streamItems Req RowsRemaining items n).1 = items.map Event.emit := by
  induction items with
  | nil => intro n _; rfl
  | cons x rest ih =>
    intro n
    unfold streamItems
    by_cases h0 : RowsRemaining (n + 1) = 0
    · simp [h0]
    · simp only [h0, if_false, List.map_cons, List.cons.injEq, true_and]
      exact ih (n + 1)

theorem emitted_map_emit {Req Item : Type} (items : List Item) :
    emitted (items.map (Event.emit : Item → Event Req Item)) = items := by
  induction items with
  | nil => rfl
  | cons x rest ih => simp [emitted, ih]

@[simp] theorem sessions_append {Req Item : Type} (a b : List (Event Req Item)) :
    sessions (a ++ b) = sessions a + sessions b := by
  induction a with
  | nil => simp [sessions]
  | cons e t ih =>
    cases e with
    | session r =>
      show sessions (t ++ b) + 1 = sessions t + 1 + sessions b
      omega
    | request r => exact ih
    | emit x => exact ih

theorem sessions_map_emit {Req Item : Type} (items : List Item) :
    sessions (items.map (Event.emit : Item → Event Req Item)) = 0 := by
  induction items with
  | nil => rfl
  | cons x rest ih => simp [sessions, ih]

theorem requests_map_emit {Req Item : Type} (items : List Item) :
    requests (items.map (Event.emit : Item → Event Req Item)) = [] := by
  induction items with
  | nil => rfl
  | cons x rest ih => simp [requests, ih]

/-- Within one page: nothing is streamed after the emission at which the remaining rows
are seen to be zero, and the handler returns there. -/
theorem streamItems_stop {Req Item : Type} (RowsRemaining : Nat → Nat) (items : List Item) :
    ∀ (n : Nat) (pre : List (Event Req Item)) (x : Item) (post : List (Event Req Item)),
      (streamItems Req RowsRemaining items n).1 = pre ++ .emit x :: post →
      RowsRemaining (n + (emitted pre).length + 1) = 0 →
      post = [] ∧ (streamItems Req RowsRemaining items n).2 = true := by
  induction items with
  | nil =>
    intro n pre x post h _
    simp [streamItems] at h
  | cons y rest ih =>
    intro n pre x post h hz
    unfold streamItems at h ⊢
    by_cases h0 : RowsRemaining (n + 1) = 0
    · simp only [h0, if_true] at h ⊢
      cases pre with
      | nil =>
        simp only [List.nil_append, List.cons.injEq] at h
        exact ⟨h.2.symm, trivial⟩
      | cons e pre' =>
        simp only [List.cons_append, List.cons.injEq] at h
        have := h.2
        simp at this
    · simp only [h0, if_false] at h ⊢
      cases pre with
      | nil =>
        simp only [emitted, List.length_nil, Nat.add_zero] at hz
        exact absurd hz h0
      | cons e pre' =>
        simp only [List.cons_append, List.cons.injEq] at h
        obtain ⟨he, ht⟩ := h
        subst he
        apply ih (n + 1) pre' x post ht
        simp only [emitted, List.length_cons] at hz
        rw [← hz]
        congr 1
        omega

/-- Splitting the trace of a page followed by `rest` at an emission after which no rows
remain: either the page ended the run at that emission, or the emission lies in `rest`. -/
theorem streamItems_split {Req Item : Type} (RowsRemaining : Nat → Nat) (items : List Item)
    (n : Nat) (rest pre : List (Event Req Item)) (x : Item) (post : List (Event Req Item))
    (h : (streamItems Req RowsRemaining items n).1 ++ rest = pre ++ .emit x :: post)
    (hz : RowsRemaining (n + (emitted pre).length + 1) = 0) :
    ((streamItems Req RowsRemaining items n).2 = true ∧ post = rest)
    ∨ (∃ a, pre = (streamItems Req RowsRemaining items n).1 ++ a
        ∧ rest = a ++ .emit x :: post) := by
  rcases List.append_eq_append_iff.mp h with ⟨a, h1, h2⟩ | ⟨c, h1, h2⟩
  · exact Or.inr ⟨a, h1, h2⟩
  · cases c with
    | nil =>
      refine Or.inr ⟨[], ?_, ?_⟩
      · simpa using h1.symm
      · simpa using h2.symm
    | cons e c' =>
      simp only [List.cons_append, List.cons.injEq] at h2
      obtain ⟨he, hp⟩ := h2
      subst he
      obtain ⟨hc, hs⟩ := streamItems_stop RowsRemaining items n pre x c' h1 hz
      subst hc
      exact Or.inl ⟨hs, by simpa using hp⟩

/-- The pagination loop, from any state: nothing happens after the emission at which the
remaining rows are seen to be zero, and the handler returns `(nil, nil)` there. -/
theorem pageLoop_stop {Req Item : Type}
    (call : Nat → Req → Except Error (ListResponse Item))
    (setPage : Req → Option String → Req) (RowsRemaining : Nat → Nat) :
    ∀ (fuel calls n : Nat) (request : Req) (pre : List (Event Req Item)) (x : Item)
      (post : List (Event Req Item)),
      (pageLoop call setPage RowsRemaining fuel calls n request).trace = pre ++ .emit x :: post →
      RowsRemaining (n + (emitted pre).length + 1) = 0 →
      post = [] ∧
        (pageLoop call setPage RowsRemaining fuel calls n request).status
          = .returned none none := by
  intro fuel
  induction fuel with
  | zero =>
    intro calls n request pre x post h _
    simp [pageLoop] at h
  | succ fuel ih =>
    intro calls n request pre x post h hz
    unfold pageLoop at h ⊢
    cases hc : call calls request with
    | error err =>
      simp only [hc] at h
      cases pre with
      | nil => simp at h
      | cons e pre' =>
        simp only [List.cons_append, List.cons.injEq] at h
        have := h.2
        simp at this
    | ok response =>
      simp only [hc] at h ⊢
      cases pre with
      | nil =>
        split at h <;> try split at h
        all_goals simp at h
      | cons e pre' =>
        have hz' : RowsRemaining (n + (emitted pre').length + 1) = 0 := by
          have he : e = .request request := by
            split at h <;> try split at h
            all_goals
              simp only [List.cons_append, List.cons.injEq] at h
              exact h.1.symm
          subst he
          simpa [emitted] using hz
        by_cases hs : (streamItems Req RowsRemaining response.Items n).2 = true
        · simp only [hs, if_true] at h ⊢
          simp only [List.cons_append, List.cons.injEq] at h
          have h' : (streamItems Req RowsRemaining response.Items n).1 ++ []
              = pre' ++ .emit x :: post := by simpa using h.2
          rcases streamItems_split RowsRemaining response.Items n [] pre' x post h' hz' with
            ⟨_, hp⟩ | ⟨a, _, ha⟩
          · exact ⟨hp, trivial⟩
          · simp at ha
        · have hs' : (streamItems Req RowsRemaining response.Items n).2 = false := by
            simpa using hs
          simp only [hs', Bool.false_eq_true, if_false] at h ⊢
          cases hp : response.OpcNextPage with
          | none =>
            simp only [hp, List.cons_append, List.cons.injEq] at h
            have h' : (streamItems Req RowsRemaining response.Items n).1 ++ []
                = pre' ++ .emit x :: post := by simpa using h.2
            rcases streamItems_split RowsRemaining response.Items n [] pre' x post h' hz' with
              ⟨ht, _⟩ | ⟨a, _, ha⟩
            · rw [hs'] at ht
              exact absurd ht (by simp)
            · simp at ha
          | some page =>
            simp only [hp, List.cons_append, List.cons.injEq] at h ⊢
            rcases streamItems_split RowsRemaining response.Items n _ pre' x post h.2 hz' with
              ⟨ht, _⟩ | ⟨a, hpre, ha⟩
            · rw [hs'] at ht
              exact absurd ht (by simp)
            · apply ih (calls + 1) (n + response.Items.length) (setPage request (some page))
                a x post ha
              rw [← hz', hpre, streamItems_not_stopped RowsRemaining response.Items n hs']
              simp only [emitted_append, emitted_map_emit, List.length_append]
              congr 1
              omega

/-- A handler outcome made of the session creation followed by the pagination loop
inherits `pageLoop_stop`. -/
theorem session_then_pageLoop_stop {Req Item : Type}
    (call : Nat → Req → Except Error (ListResponse Item))
    (setPage : Req → Option String → Req) (RowsRemaining : Nat → Nat)
    (fuel : Nat) (request : Req) (region : String)
    (pre : List (Event Req Item)) (x : Item) (post : List (Event Req Item))
    (h : Event.session region :: (pageLoop call setPage RowsRemaining fuel 0 0 request).trace
        = pre ++ .emit x :: post)
    (hz : RowsRemaining ((emitted pre).length + 1) = 0) :
    post = [] ∧
      (pageLoop call setPage RowsRemaining fuel 0 0 request).status = .returned none none := by
  cases pre with
  | nil => simp at h
  | cons e pre' =>
    simp only [List.cons_append, List.cons.injEq] at h
    obtain ⟨he, ht⟩ := h
    subst he
    apply pageLoop_stop call setPage RowsRemaining fuel 0 0 request pre' x post ht
    simpa [emitted] using hz

/-- A page streamed while the budget lasts is streamed whole and does not end the run. -/
theorem streamItems_all {Req Item : Type} (RowsRemaining : Nat → Nat) (items : List Item) :
    ∀ n : Nat, BudgetLasts RowsRemaining n items.length →
      streamItems Req RowsRemaining items n = (items.map Event.emit, false) := by
  induction items with
  | nil => intro n _; rfl
  | cons x rest ih =>
    intro n hb
    unfold streamItems
    have h1 : RowsRemaining (n + 1) ≠ 0 := hb 1 (by omega) (by simp)
    simp only [h1, if_false]
    have hrest : BudgetLasts RowsRemaining (n + 1) rest.length := by
      intro i hi hle
      have := hb (i + 1) (by omega) (by simp only [List.length_cons]; omega)
      rwa [show n + 1 + i = n + (i + 1) by omega]
    rw [ih (n + 1) hrest]
    rfl

/-- The pagination loop on a cursor chain, from any state: it ends with `(nil, nil)`
after requesting the pages in cursor order and streaming all their items. -/
theorem pageLoop_chain {Req Item : Type}
    (call : Nat → Req → Except Error (ListResponse Item))
    (setPage : Req → Option String → Req) (getPage : Req → Option String)
    (hget : ∀ r c, getPage (setPage r c) = c)
    (RowsRemaining : Nat → Nat) (last : List Item) :
    ∀ (nonfinal : List (List Item × String)) (fuel calls n : Nat) (request : Req)
      (first : Option String), getPage request = first →
      nonfinal.length + 1 ≤ fuel →
      AnswersChain call getPage first nonfinal last calls →
      BudgetLasts RowsRemaining n (chainItems nonfinal last).length →
      (pageLoop call setPage RowsRemaining fuel calls n request).status = .returned none none
      ∧ (requests (pageLoop call setPage RowsRemaining fuel calls n request).trace).map getPage
          = chainCursors first nonfinal
      ∧ emitted (pageLoop call setPage RowsRemaining fuel calls n request).trace
          = chainItems nonfinal last
      ∧ sessions (pageLoop call setPage RowsRemaining fuel calls n request).trace = 0 := by
  intro nonfinal
  induction nonfinal with
  | nil =>
    intro fuel calls n request first hfirst hfuel hserve hbudget
    subst hfirst
    obtain ⟨f, rfl⟩ : ∃ f, fuel = f + 1 := ⟨fuel - 1, by simp at hfuel; omega⟩
    have hc : call calls request = .ok ⟨last, none⟩ := by
      have := hserve 0 ⟨last, none⟩ (getPage request) request (by simp [chainPages])
        (by simp [chainCursors]) rfl
      simpa using this
    have hs : streamItems Req RowsRemaining last n = (last.map Event.emit, false) := by
      apply streamItems_all
      simpa [chainItems] using hbudget
    unfold pageLoop
    simp only [hc, hs, Bool.false_eq_true, if_false]
    refine ⟨trivial, ?_, ?_, ?_⟩
    · simp [requests, requests_map_emit, chainCursors]
    · simp [emitted, emitted_map_emit, chainItems]
    · simp only [sessions, sessions_map_emit]
  | cons p rest ih =>
    intro fuel calls n request first hfirst hfuel hserve hbudget
    subst hfirst
    obtain ⟨items, cursor⟩ := p
    obtain ⟨f, rfl⟩ : ∃ f, fuel = f + 1 := ⟨fuel - 1, by simp at hfuel; omega⟩
    have hc : call calls request = .ok ⟨items, some cursor⟩ := by
      have := hserve 0 ⟨items, some cursor⟩ (getPage request) request (by simp [chainPages])
        (by simp [chainCursors]) rfl
      simpa using this
    have hlen : (chainItems ((items, cursor) :: rest) last).length
        = items.length + (chainItems rest last).length := by
      simp [chainItems, Nat.add_assoc]
    have hs : streamItems Req RowsRemaining items n = (items.map Event.emit, false) := by
      apply streamItems_all
      intro i hi hle
      exact hbudget i hi (by omega)
    have hserve' : AnswersChain call getPage (some cursor) rest last (calls + 1) := by
      intro k resp c r hp hcur hr
      have := hserve (k + 1) resp c r (by simpa [chainPages] using hp)
        (by simpa [chainCursors] using hcur) hr
      rwa [show calls + 1 + k = calls + (k + 1) by omega]
    have hbudget' : BudgetLasts RowsRemaining (n + items.length) (chainItems rest last).length := by
      intro i hi hle
      have := hbudget (items.length + i) (by omega) (by omega)
      rwa [show n + items.length + i = n + (items.length + i) by omega]
    obtain ⟨h1, h2, h3, h4⟩ := ih f (calls + 1) (n + items.length)
      (setPage request (some cursor)) (some cursor) (hget _ _) (by simp at hfuel; omega)
      hserve' hbudget'
    unfold pageLoop
    simp only [hc, hs, Bool.false_eq_true, if_false]
    refine ⟨h1, ?_, ?_, ?_⟩
    · simp only [requests, requests_append, requests_map_emit, List.nil_append, List.map_cons,
        h2, hget]
      simp [chainCursors]
    · simp only [emitted, emitted_append, emitted_map_emit, h3]
      simp [chainItems]
    · simp only [sessions, sessions_append, sessions_map_emit, h4]

theorem buildArtifactsContainerRepositoryFilters_Page (F : KeyColumnEqualsQualMap) :
    (buildArtifactsContainerRepositoryFilters F).Page = none := by
  unfold buildArtifactsContainerRepositoryFilters
  cases F.index "compartment_id" <;> cases F.index "display_name" <;>
    cases F.index "is_public" <;> cases F.index "lifecycle_state" <;> rfl

theorem buildListCertificatesManagementAssociationFilters_Page (F : KeyColumnEqualsQualMap) :
    (buildListCertificatesManagementAssociationFilters F).Page = none := by
  unfold buildListCertificatesManagementAssociationFilters
  cases F.index "compartment_id" <;> cases F.index "certificates_resource_id" <;>
    cases F.index "associated_resource_id" <;> cases F.index "name" <;>
    cases F.index "association_type" <;> rfl

theorem buildListCertificatesManagementCertificateFilters_Page (F : KeyColumnEqualsQualMap) :
    (buildListCertificatesManagementCertificateFilters F).Page = none := by
  unfold buildListCertificatesManagementCertificateFilters
  cases F.index "compartment_id" <;> cases F.index "lifecycle_state" <;>
    cases F.index "name" <;> cases F.index "issuer_certificate_authority_id" <;> rfl

/-- The compartment check of the list handlers lets the run through when every
`compartment_id` filter value equals the matrix compartment. -/
theorem compartment_check_passes (d : QueryData) (m : MatrixItem)
    (hscope : ∀ q, d.KeyColumnQuals.index "compartment_id" = some q →
      GetStringValue (some q) = m.compartment) :
    ((d.KeyColumnQuals.index "compartment_id").isSome
      && m.compartment != GetStringValue (d.KeyColumnQuals.index "compartment_id")) = false := by
  cases h : d.KeyColumnQuals.index "compartment_id" with
  | none => rfl
  | some q =>
    have := hscope q h
    simp [this]

/-- A handler outcome made of the session creation followed by the pagination loop on a
cursor chain. -/
theorem session_then_pageLoop_chain {Req Item : Type}
    (call : Nat → Req → Except Error (ListResponse Item))
    (setPage : Req → Option String → Req) (getPage : Req → Option String)
    (hget : ∀ r c, getPage (setPage r c) = c)
    (RowsRemaining : Nat → Nat) (last : List Item) (nonfinal : List (List Item × String))
    (fuel : Nat) (request : Req) (region : String)
    (hfirst : getPage request = none) (hfuel : nonfinal.length + 1 ≤ fuel)
    (hserve : AnswersChain call getPage none nonfinal last 0)
    (hbudget : BudgetLasts RowsRemaining 0 (chainItems nonfinal last).length) :
    (pageLoop call setPage RowsRemaining fuel 0 0 request).status = .returned none none
    ∧ (requests (Event.session region ::
          (pageLoop call setPage RowsRemaining fuel 0 0 request).trace)).map getPage
        = chainCursors none nonfinal
    ∧ emitted (Event.session region ::
          (pageLoop call setPage RowsRemaining fuel 0 0 request).trace)
        = chainItems nonfinal last
    ∧ sessions (Event.session region ::
          (pageLoop call setPage RowsRemaining fuel 0 0 request).trace) = 1 := by
  obtain ⟨h1, h2, h3, h4⟩ := pageLoop_chain call setPage getPage hget RowsRemaining last
    nonfinal fuel 0 0 request none hfirst hfuel hserve hbudget
  exact ⟨h1, by simpa only [requests] using h2, by simpa only [emitted] using h3,
    by simp only [sessions, h4]⟩

/-- A page contributes only emissions to the trace. -/
theorem streamItems_emits {Req Item : Type} (RowsRemaining : Nat → Nat) (items : List Item) :
    ∀ (n : Nat) (e : Event Req Item), e ∈ (streamItems Req RowsRemaining items n).1 →
      ∃ x, e = .emit x := by
  induction items with
  | nil =>
    intro n e he
    simp [streamItems] at he
  | cons y rest ih =>
    intro n e he
    unfold streamItems at he
    by_cases h0 : RowsRemaining (n + 1) = 0
    · simp only [h0, if_true, List.mem_singleton] at he
      exact ⟨y, he⟩
    · simp only [h0, if_false, List.mem_cons] at he
      rcases he with he | he
      · exact ⟨y, he⟩
      · exact ih (n + 1) e he

/-- A provider request found in the trace of a page followed by `rest` lies in `rest`. -/
theorem streamItems_request_split {Req Item : Type} (RowsRemaining : Nat → Nat)
    (items : List Item) (n : Nat) (rest pre : List (Event Req Item)) (r : Req)
    (post : List (Event Req Item))
    (h : (streamItems Req RowsRemaining items n).1 ++ rest = pre ++ .request r :: post) :
    ∃ a, pre = (streamItems Req RowsRemaining items n).1 ++ a
      ∧ rest = a ++ .request r :: post := by
  rcases List.append_eq_append_iff.mp h with ⟨a, h1, h2⟩ | ⟨c, h1, h2⟩
  · exact ⟨a, h1, h2⟩
  · cases c with
    | nil =>
      refine ⟨[], ?_, ?_⟩
      · simpa using h1.symm
      · simpa using h2.symm
    | cons e c' =>
      simp only [List.cons_append, List.cons.injEq] at h2
      obtain ⟨he, _⟩ := h2
      subst he
      have hmem : Event.request r ∈ (streamItems Req RowsRemaining items n).1 := by
        rw [h1]
        simp
      obtain ⟨x, hx⟩ := streamItems_emits RowsRemaining items n _ hmem
      cases hx

/-- The pagination loop, from any state: a provider request that fails is the last effect
of the run, its error is the error returned, and what was streamed before it is exactly
the items of the responses to the earlier requests. -/
theorem pageLoop_error {Req Item : Type}
    (call : Nat → Req → Except Error (ListResponse Item))
    (setPage : Req → Option String → Req) (RowsRemaining : Nat → Nat) :
    ∀ (fuel calls n : Nat) (request : Req) (pre : List (Event Req Item)) (r : Req)
      (post : List (Event Req Item)) (e : Error),
      (pageLoop call setPage RowsRemaining fuel calls n request).trace
          = pre ++ .request r :: post →
      call (calls + (requests pre).length) r = .error e →
      post = []
      ∧ (pageLoop call setPage RowsRemaining fuel calls n request).status
          = .returned none (some e)
      ∧ emitted pre = responseItems call calls (requests pre) := by
  intro fuel
  induction fuel with
  | zero =>
    intro calls n request pre r post e h _
    simp [pageLoop] at h
  | succ fuel ih =>
    intro calls n request pre r post e h he
    unfold pageLoop at h ⊢
    cases hc : call calls request with
    | error err =>
      simp only [hc] at h ⊢
      cases pre with
      | nil =>
        simp only [List.nil_append, List.cons.injEq, Event.request.injEq] at h
        obtain ⟨hr, hp⟩ := h
        subst hr
        simp only [requests, List.length_nil, Nat.add_zero, hc, Except.error.injEq] at he
        subst he
        exact ⟨hp.symm, rfl, rfl⟩
      | cons e' pre' =>
        simp only [List.cons_append, List.cons.injEq] at h
        have := h.2
        simp at this
    | ok response =>
      simp only [hc] at h ⊢
      cases pre with
      | nil =>
        have hr : r = request := by
          split at h <;> try split at h
          all_goals
            simp only [List.nil_append, List.cons.injEq, Event.request.injEq] at h
            exact h.1.symm
        subst hr
        simp only [requests, List.length_nil, Nat.add_zero, hc] at he
        cases he
      | cons e' pre' =>
        have he' : e' = .request request := by
          split at h <;> try split at h
          all_goals
            simp only [List.cons_append, List.cons.injEq] at h
            exact h.1.symm
        subst he'
        by_cases hs : (streamItems Req RowsRemaining response.Items n).2 = true
        · simp only [hs, if_true, List.cons_append, List.cons.injEq, true_and] at h
          have h' : (streamItems Req RowsRemaining response.Items n).1 ++ []
              = pre' ++ .request r :: post := by simpa using h
          obtain ⟨a, _, ha⟩ := streamItems_request_split RowsRemaining response.Items n []
            pre' r post h'
          simp at ha
        · have hs' : (streamItems Req RowsRemaining response.Items n).2 = false := by
            simpa using hs
          simp only [hs', Bool.false_eq_true, if_false] at h ⊢
          cases hp : response.OpcNextPage with
          | none =>
            simp only [hp, List.cons_append, List.cons.injEq, true_and] at h
            have h' : (streamItems Req RowsRemaining response.Items n).1 ++ []
                = pre' ++ .request r :: post := by simpa using h
            obtain ⟨a, _, ha⟩ := streamItems_request_split RowsRemaining response.Items n []
              pre' r post h'
            simp at ha
          | some page =>
            simp only [hp, List.cons_append, List.cons.injEq, true_and] at h ⊢
            obtain ⟨a, hpre, ha⟩ := streamItems_request_split RowsRemaining response.Items n _
              pre' r post h
            have hall := streamItems_not_stopped RowsRemaining response.Items n hs'
            have hreq : requests (Event.request request :: pre') = request :: requests a := by
              rw [hpre, hall]
              simp [requests, requests_map_emit]
            obtain ⟨h1, h2, h3⟩ := ih (calls + 1) (n + response.Items.length)
              (setPage request (some page)) a r post e ha (by
                rw [← he, hreq]
                congr 1
                simp only [List.length_cons]
                omega)
            refine ⟨h1, h2, ?_⟩
            rw [hreq]
            simp only [emitted, responseItems, hc, hpre, hall, emitted_append,
              emitted_map_emit, h3]

/-- A handler outcome made of the session creation followed by the pagination loop
inherits `pageLoop_error`. -/
theorem session_then_pageLoop_error {Req Item : Type}
    (call : Nat → Req → Except Error (ListResponse Item))
    (setPage : Req → Option String → Req) (RowsRemaining : Nat → Nat)
    (fuel : Nat) (request : Req) (region : String)
    (pre : List (Event Req Item)) (r : Req) (post : List (Event Req Item)) (e : Error)
    (h : Event.session region :: (pageLoop call setPage RowsRemaining fuel 0 0 request).trace
        = pre ++ .request r :: post)
    (he : call (requests pre).length r = .error e) :
    post = []
    ∧ (pageLoop call setPage RowsRemaining fuel 0 0 request).status = .returned none (some e)
    ∧ emitted pre = responseItems call 0 (requests pre) := by
  cases pre with
  | nil => simp at h
  | cons e' pre' =>
    simp only [List.cons_append, List.cons.injEq] at h
    obtain ⟨he', ht⟩ := h
    subst he'
    have := pageLoop_error call setPage RowsRemaining fuel 0 0 request pre' r post e ht
      (by simpa [requests] using he)
    simpa [requests, emitted] using this

/-! ### Go maps -/

theorem GoMap.index_set {V : Type} (m : GoMap V) (key : String) (v : V) (k : String) :
    (m.set key v).index k = if k = key then some v else m.index k := by
  induction m with
  | nil =>
    show List.lookup k [(key, v)] = if k = key then some v else List.lookup k []
    by_cases hk : k = key
    · subst hk
      simp only [List.lookup_cons, beq_self_eq_true, if_true]
    · have hb : (k == key) = false := by simpa using hk
      simp only [List.lookup_cons, hb, hk, if_false, List.lookup_nil]
  | cons p rest ih =>
    obtain ⟨a, b⟩ := p
    unfold GoMap.index at ih ⊢
    unfold GoMap.set
    by_cases ha : a = key
    · subst ha
      simp only [if_true]
      by_cases hk : k = a
      · subst hk
        simp only [List.lookup_cons, beq_self_eq_true, if_true]
      · have hb : (k == a) = false := by simpa using hk
        simp only [List.lookup_cons, hb, hk, if_false]
    · simp only [ha, if_false]
      by_cases hk : k = a
      · subst hk
        simp only [List.lookup_cons, beq_self_eq_true, ha, if_false]
      · have hb : (k == a) = false := by simpa using hk
        simp only [List.lookup_cons, hb]
        exact ih

theorem GoMap.mem_keys_set {V : Type} (m : GoMap V) (key : String) (v : V) (k : String) :
    k ∈ (m.set key v).keys ↔ k = key ∨ k ∈ m.keys := by
  induction m with
  | nil => simp [GoMap.set, GoMap.keys]
  | cons p rest ih =>
    obtain ⟨a, b⟩ := p
    unfold GoMap.keys at ih ⊢
    unfold GoMap.set
    by_cases ha : a = key
    · subst ha
      simp
    · simp only [ha, if_false, List.map_cons, List.mem_cons, ih]
      tauto

theorem GoMap.mem_keys_iff {V : Type} (m : GoMap V) (k : String) :
    k ∈ m.keys ↔ ∃ x, (k, x) ∈ m := by
  unfold GoMap.keys
  simp

/-- Copying a namespace: a key outside the namespace keeps its value. -/
theorem copyNamespace_index_of_not_mem (v : GoMap Value) :
    ∀ (tags : GoMap Value) (k : String), k ∉ v.keys →
      (copyNamespace v tags).index k = tags.index k := by
  induction v with
  | nil => intro tags k _; rfl
  | cons p rest ih =>
    intro tags k hk
    obtain ⟨a, b⟩ := p
    have hka : k ≠ a := by
      intro h
      apply hk
      simp [GoMap.keys, h]
    have hrest : k ∉ GoMap.keys rest := by
      intro h
      apply hk
      simp only [GoMap.keys, List.map_cons, List.mem_cons]
      exact Or.inr h
    show (copyNamespace rest (tags.set a b)).index k = tags.index k
    rw [ih (tags.set a b) k hrest, GoMap.index_set, if_neg hka]

/-- Copying a namespace: a key of the namespace ends with one of the namespace's values
for it. -/
theorem copyNamespace_index_of_mem (v : GoMap Value) :
    ∀ (tags : GoMap Value) (k : String), k ∈ v.keys →
      ∃ x, (k, x) ∈ v ∧ (copyNamespace v tags).index k = some x := by
  induction v with
  | nil =>
    intro tags k hk
    simp [GoMap.keys] at hk
  | cons p rest ih =>
    intro tags k hk
    obtain ⟨a, b⟩ := p
    by_cases hrest : k ∈ GoMap.keys rest
    · obtain ⟨x, hx, hi⟩ := ih (tags.set a b) k hrest
      exact ⟨x, List.mem_cons_of_mem _ hx, hi⟩
    · have hka : k = a := by
        simp only [GoMap.keys, List.map_cons, List.mem_cons] at hk
        rcases hk with hk | hk
        · exact hk
        · exact absurd hk hrest
      subst hka
      refine ⟨b, List.mem_cons_self _ _, ?_⟩
      show (copyNamespace rest (tags.set k b)).index k = some b
      rw [copyNamespace_index_of_not_mem rest _ k hrest, GoMap.index_set, if_pos rfl]

/-- Copying a namespace with distinct keys: every entry of the namespace is in the result. -/
theorem copyNamespace_index_of_entry (v : GoMap Value) (hwf : v.WF) :
    ∀ (tags : GoMap Value) (k : String) (x : Value), (k, x) ∈ v →
      (copyNamespace v tags).index k = some x := by
  induction v with
  | nil =>
    intro tags k x hx
    simp at hx
  | cons p rest ih =>
    intro tags k x hx
    obtain ⟨a, b⟩ := p
    have hnd : a ∉ GoMap.keys rest ∧ GoMap.WF rest := by
      simpa [GoMap.WF, GoMap.keys] using hwf
    rcases List.mem_cons.mp hx with heq | hmem
    · simp only [Prod.mk.injEq] at heq
      obtain ⟨hk, hxb⟩ := heq
      subst hk hxb
      show (copyNamespace rest (tags.set k x)).index k = some x
      rw [copyNamespace_index_of_not_mem rest _ k hnd.1, GoMap.index_set, if_pos rfl]
    · exact ih hnd.2 (tags.set a b) k x hmem

theorem copyNamespace_mem_keys (v : GoMap Value) :
    ∀ (tags : GoMap Value) (k : String),
      k ∈ (copyNamespace v tags).keys ↔ k ∈ v.keys ∨ k ∈ tags.keys := by
  induction v with
  | nil =>
    intro tags k
    simp [copyNamespace, GoMap.keys]
  | cons p rest ih =>
    intro tags k
    obtain ⟨a, b⟩ := p
    show k ∈ (copyNamespace rest (tags.set a b)).keys ↔ _
    rw [ih (tags.set a b) k, GoMap.mem_keys_set]
    simp only [GoMap.keys, List.map_cons, List.mem_cons]
    tauto

/-- Copying the free-form tags into the empty map: keys. -/
theorem copyFreeformTags_mem_keys (f : GoMap String) :
    ∀ (tags : GoMap Value) (k : String),
      k ∈ (copyFreeformTags f tags).keys ↔ k ∈ f.keys ∨ k ∈ tags.keys := by
  induction f with
  | nil =>
    intro tags k
    simp [copyFreeformTags, GoMap.keys]
  | cons p rest ih =>
    intro tags k
    obtain ⟨a, b⟩ := p
    show k ∈ (copyFreeformTags rest (tags.set a (.string b))).keys ↔ _
    rw [ih (tags.set a (.string b)) k, GoMap.mem_keys_set]
    simp only [GoMap.keys, List.map_cons, List.mem_cons]
    tauto

theorem copyFreeformTags_index_of_not_mem (f : GoMap String) :
    ∀ (tags : GoMap Value) (k : String), k ∉ f.keys →
      (copyFreeformTags f tags).index k = tags.index k := by
  induction f with
  | nil => intro tags k _; rfl
  | cons p rest ih =>
    intro tags k hk
    obtain ⟨a, b⟩ := p
    have hka : k ≠ a := by
      intro h
      apply hk
      simp [GoMap.keys, h]
    have hrest : k ∉ GoMap.keys rest := by
      intro h
      apply hk
      simp only [GoMap.keys, List.map_cons, List.mem_cons]
      exact Or.inr h
    show (copyFreeformTags rest (tags.set a (.string b))).index k = tags.index k
    rw [ih (tags.set a (.string b)) k hrest, GoMap.index_set, if_neg hka]

/-- Copying free-form tags with distinct keys: every entry is in the result, as a string. -/
theorem copyFreeformTags_index_of_entry (f : GoMap String) (hwf : f.WF) :
    ∀ (tags : GoMap Value) (k : String) (x : String), (k, x) ∈ f →
      (copyFreeformTags f tags).index k = some (.string x) := by
  induction f with
  | nil =>
    intro tags k x hx
    simp at hx
  | cons p rest ih =>
    intro tags k x hx
    obtain ⟨a, b⟩ := p
    have hnd : a ∉ GoMap.keys rest ∧ GoMap.WF rest := by
      simpa [GoMap.WF, GoMap.keys] using hwf
    rcases List.mem_cons.mp hx with heq | hmem
    · simp only [Prod.mk.injEq] at heq
      obtain ⟨hk, hxb⟩ := heq
      subst hk hxb
      show (copyFreeformTags rest (tags.set k (.string x))).index k = some (.string x)
      rw [copyFreeformTags_index_of_not_mem rest _ k hnd.1, GoMap.index_set, if_pos rfl]
    · exact ih hnd.2 (tags.set a (.string b)) k x hmem

/-- Copying the defined tags: a key in no namespace keeps its value. -/
theorem copyDefinedTags_index_of_not_mem (dt : GoMap (GoMap Value)) :
    ∀ (tags : GoMap Value) (k : String), (∀ ns ∈ dt, k ∉ ns.2.keys) →
      (copyDefinedTags dt tags).index k = tags.index k := by
  induction dt with
  | nil => intro tags k _; rfl
  | cons p rest ih =>
    intro tags k hk
    show (copyDefinedTags rest (copyNamespace p.2 tags)).index k = tags.index k
    rw [ih _ k (fun ns hns => hk ns (List.mem_cons_of_mem _ hns)),
      copyNamespace_index_of_not_mem p.2 tags k (hk p (List.mem_cons_self _ _))]

/-- Copying the defined tags: a key of some namespace ends with a value some namespace
gives it. -/
theorem copyDefinedTags_index_of_mem (dt : GoMap (GoMap Value)) :
    ∀ (tags : GoMap Value) (k : String), (∃ ns ∈ dt, k ∈ ns.2.keys) →
      ∃ ns ∈ dt, ∃ x, (k, x) ∈ ns.2 ∧ (copyDefinedTags dt tags).index k = some x := by
  induction dt with
  | nil =>
    intro tags k hk
    obtain ⟨ns, hns, _⟩ := hk
    simp at hns
  | cons p rest ih =>
    intro tags k hk
    by_cases hrest : ∃ ns ∈ rest, k ∈ ns.2.keys
    · obtain ⟨ns, hns, x, hx, hi⟩ := ih (copyNamespace p.2 tags) k hrest
      exact ⟨ns, List.mem_cons_of_mem _ hns, x, hx, hi⟩
    · have hp : k ∈ p.2.keys := by
        obtain ⟨ns, hns, hkns⟩ := hk
        rcases List.mem_cons.mp hns with h | h
        · rw [← h]; exact hkns
        · exact absurd ⟨ns, h, hkns⟩ hrest
      obtain ⟨x, hx, hi⟩ := copyNamespace_index_of_mem p.2 tags k hp
      refine ⟨p, List.mem_cons_self _ _, x, hx, ?_⟩
      show (copyDefinedTags rest (copyNamespace p.2 tags)).index k = some x
      rw [copyDefinedTags_index_of_not_mem rest _ k
        (fun ns hns hkns => hrest ⟨ns, hns, hkns⟩), hi]

theorem copyDefinedTags_mem_keys (dt : GoMap (GoMap Value)) :
    ∀ (tags : GoMap Value) (k : String),
      k ∈ (copyDefinedTags dt tags).keys ↔ (∃ ns ∈ dt, k ∈ ns.2.keys) ∨ k ∈ tags.keys := by
  induction dt with
  | nil =>
    intro tags k
    simp [copyDefinedTags]
  | cons p rest ih =>
    intro tags k
    show k ∈ (copyDefinedTags rest (copyNamespace p.2 tags)).keys ↔ _
    rw [ih (copyNamespace p.2 tags) k, copyNamespace_mem_keys]
    constructor
    · rintro (⟨ns, hns, hk⟩ | hk | hk)
      · exact Or.inl ⟨ns, List.mem_cons_of_mem _ hns, hk⟩
      · exact Or.inl ⟨p, List.mem_cons_self _ _, hk⟩
      · exact Or.inr hk
    · rintro (⟨ns, hns, hk⟩ | hk)
      · rcases List.mem_cons.mp hns with h | h
        · subst h
          exact Or.inr (Or.inl hk)
        · exact Or.inl ⟨ns, h, hk⟩
      · exact Or.inr (Or.inr hk)

theorem copyDefinedTags_append (pre post : GoMap (GoMap Value)) (tags : GoMap Value) :
    copyDefinedTags (pre ++ post) tags = copyDefinedTags post (copyDefinedTags pre tags) := by
  unfold copyDefinedTags
  rw [List.foldl_append]

/-- The merged map of a record with at least one tag map present. -/
theorem certificatesManagementCertificateTags_eq (d : TransformData) (id : Option String)
    (free : Option (GoMap String)) (defined : Option (GoMap (GoMap Value)))
    (hd : d = ⟨some (.certificate ⟨id, free, defined⟩)⟩
      ∨ d = ⟨some (.certificateSummary ⟨id, free, defined⟩)⟩)
    (hpresent : free.isSome = true ∨ defined.isSome = true) :
    certificatesManagementCertificateTags d
      = (some (copyDefinedTags (defined.getD []) (copyFreeformTags (free.getD []) [])), none) := by
  rcases hd with rfl | rfl <;>
  · unfold certificatesManagementCertificateTags
    cases free <;> cases defined <;> simp_all [copyDefinedTags, copyFreeformTags]

/-- A page contributes no provider request to the trace. -/
theorem requests_streamItems {Req Item : Type} (RowsRemaining : Nat → Nat)
    (items : List Item) :
    ∀ n : Nat, requests (streamItems Req RowsRemaining items n).1 = [] := by
  induction items with
  | nil => intro n; rfl
  | cons x rest ih =>
    intro n
    unfold streamItems
    by_cases h0 : RowsRemaining (n + 1) = 0
    · simp only [h0, if_true, requests]
    · simp only [h0, if_false, requests]
      exact ih (n + 1)

/-- Whatever the assignment `request.Page = ...` leaves untouched is the same in every
request the pagination loop issues. -/
theorem pageLoop_requests_field {Req Item α : Type}
    (call : Nat → Req → Except Error (ListResponse Item))
    (setPage : Req → Option String → Req) (RowsRemaining : Nat → Nat)
    (f : Req → α) (hf : ∀ r c, f (setPage r c) = f r) :
    ∀ (fuel calls n : Nat) (request r : Req),
      r ∈ requests (pageLoop call setPage RowsRemaining fuel calls n request).trace →
      f r = f request := by
  intro fuel
  induction fuel with
  | zero =>
    intro calls n request r hr
    simp [pageLoop, requests] at hr
  | succ fuel ih =>
    intro calls n request r hr
    unfold pageLoop at hr
    cases hc : call calls request with
    | error err =>
      simp only [hc, requests, List.mem_singleton] at hr
      rw [hr]
    | ok response =>
      simp only [hc] at hr
      by_cases hs : (streamItems Req RowsRemaining response.Items n).2 = true
      · simp only [hs, if_true, requests, requests_streamItems, List.mem_singleton] at hr
        rw [hr]
      · have hs' : (streamItems Req RowsRemaining response.Items n).2 = false := by
          simpa using hs
        simp only [hs', Bool.false_eq_true, if_false] at hr
        cases hp : response.OpcNextPage with
        | none =>
          simp only [hp, requests, requests_streamItems, List.mem_singleton] at hr
          rw [hr]
        | some page =>
          simp only [hp, requests, requests_append, requests_streamItems, List.nil_append,
            List.mem_cons] at hr
          rcases hr with hr | hr
          · rw [hr]
          · rw [ih _ _ _ r hr, hf]

/-- The page size after the clamp `if *limit < int64(*request.Limit)`, case by case. -/
theorem clamped_limit_cases (D : Int) (limit x : Option Int)
    (hx : x = (match limit with
      | some L => if L < D then some L else some D
      | none => some D)) :
    (limit = none → x = some D)
    ∧ (∀ L, limit = some L → D ≤ L → x = some D)
    ∧ (∀ L, limit = some L → L < D → x = some L)
    ∧ (∀ L, limit = some L → x = some (min D L)) := by
  subst hx
  refine ⟨?_, ?_, ?_, ?_⟩
  · rintro rfl
    rfl
  · rintro L rfl hL
    simp only [not_lt.mpr hL, if_false]
  · rintro L rfl hL
    simp only [hL, if_true]
  · rintro L rfl
    by_cases hL : L < D
    · simp only [hL, if_true, min_eq_right (le_of_lt hL)]
    · simp only [hL, if_false, min_eq_left (not_lt.mp hL)]

/-! ### The host's row counter -/

/-- The counter the handlers read through `RowsRemaining` is the host's counter. -/
theorem hostRemaining_eq_budgetCounter {Item : Type} :
    ∀ (B : Nat) (calls : List Item), hostRemaining B calls = budgetCounter B calls.length := by
  intro B
  induction B with
  | zero =>
    intro calls
    simp [hostRemaining, budgetCounter]
  | succ B ih =>
    intro calls
    cases calls with
    | nil => simp [hostRemaining, budgetCounter]
    | cons x rest =>
      simp only [hostRemaining, ih rest, budgetCounter, List.length_cons]
      omega

/-- The consumer never receives more items than rows remained. -/
theorem hostDeliver_length_le {Item : Type} :
    ∀ (B : Nat) (calls : List Item), (hostDeliver B calls).length ≤ B := by
  intro B
  induction B with
  | zero =>
    intro calls
    simp [hostDeliver]
  | succ B ih =>
    intro calls
    cases calls with
    | nil => simp [hostDeliver]
    | cons x rest =>
      simp only [hostDeliver, List.length_cons]
      have := ih rest
      omega

/-- Calls made while rows remain all reach the consumer. -/
theorem hostDeliver_eq_of_length_le {Item : Type} :
    ∀ (B : Nat) (calls : List Item), calls.length ≤ B → hostDeliver B calls = calls := by
  intro B
  induction B with
  | zero =>
    intro calls h
    have : calls = [] := List.length_eq_zero.mp (Nat.le_zero.mp h)
    subst this
    rfl
  | succ B ih =>
    intro calls h
    cases calls with
    | nil => rfl
    | cons x rest =>
      simp only [hostDeliver, List.cons.injEq, true_and]
      exact ih rest (by simpa using h)

/-! ## Claims about the filter builders -/

/-- C1: each of the three list filter builders produces exactly the request whose
field for a supported key holds the value the filter mapping gives for that key when the
key is present (a pointer field is non-nil exactly then) and whose every other field,
`Limit`, `Page` and `RequestMetadata` included, is at its zero value; restricting the
mapping to the builder's supported keys leaves the request unchanged, so keys outside the
supported set have no effect. -/
theorem filter_builders_copy_exactly_supported_keys (F : KeyColumnEqualsQualMap) :
    (buildArtifactsContainerRepositoryFilters F =
        { CompartmentId := stringField F "compartment_id"
          DisplayName := stringField F "display_name"
          IsPublic := boolField F "is_public"
          LifecycleState := stringField F "lifecycle_state"
          Limit := none, Page := none, RequestMetadata := { RetryPolicy := none } }
      ∧ ((buildArtifactsContainerRepositoryFilters F).CompartmentId.isSome
          ↔ (F.index "compartment_id").isSome)
      ∧ ((buildArtifactsContainerRepositoryFilters F).DisplayName.isSome
          ↔ (F.index "display_name").isSome)
      ∧ ((buildArtifactsContainerRepositoryFilters F).IsPublic.isSome
          ↔ (F.index "is_public").isSome)
      ∧ ((buildArtifactsContainerRepositoryFilters F).LifecycleState.isSome
          ↔ (F.index "lifecycle_state").isSome)
      ∧ buildArtifactsContainerRepositoryFilters (F.restrict containerRepositoryKeys)
          = buildArtifactsContainerRepositoryFilters F)
    ∧ (buildListCertificatesManagementAssociationFilters F =
        { CompartmentId := stringField F "compartment_id"
          CertificatesResourceId := stringField F "certificates_resource_id"
          AssociatedResourceId := stringField F "associated_resource_id"
          Name := stringField F "name"
          AssociationType := enumField F "association_type"
          Limit := none, Page := none, RequestMetadata := { RetryPolicy := none } }
      ∧ ((buildListCertificatesManagementAssociationFilters F).CompartmentId.isSome
          ↔ (F.index "compartment_id").isSome)
      ∧ ((buildListCertificatesManagementAssociationFilters F).CertificatesResourceId.isSome
          ↔ (F.index "certificates_resource_id").isSome)
      ∧ ((buildListCertificatesManagementAssociationFilters F).AssociatedResourceId.isSome
          ↔ (F.index "associated_resource_id").isSome)
      ∧ ((buildListCertificatesManagementAssociationFilters F).Name.isSome
          ↔ (F.index "name").isSome)
      ∧ buildListCertificatesManagementAssociationFilters (F.restrict associationKeys)
          = buildListCertificatesManagementAssociationFilters F)
    ∧ (buildListCertificatesManagementCertificateFilters F =
        { CompartmentId := stringField F "compartment_id"
          LifecycleState := enumField F "lifecycle_state"
          Name := stringField F "name"
          IssuerCertificateAuthorityId := stringField F "issuer_certificate_authority_id"
          Limit := none, Page := none, RequestMetadata := { RetryPolicy := none } }
      ∧ ((buildListCertificatesManagementCertificateFilters F).CompartmentId.isSome
          ↔ (F.index "compartment_id").isSome)
      ∧ ((buildListCertificatesManagementCertificateFilters F).Name.isSome
          ↔ (F.index "name").isSome)
      ∧ ((buildListCertificatesManagementCertificateFilters F).IssuerCertificateAuthorityId.isSome
          ↔ (F.index "issuer_certificate_authority_id").isSome)
      ∧ buildListCertificatesManagementCertificateFilters (F.restrict certificateKeys)
          = buildListCertificatesManagementCertificateFilters F) := by
  have e1 : buildArtifactsContainerRepositoryFilters F =
        { CompartmentId := stringField F "compartment_id"
          DisplayName := stringField F "display_name"
          IsPublic := boolField F "is_public"
          LifecycleState := stringField F "lifecycle_state"
          Limit := none, Page := none, RequestMetadata := { RetryPolicy := none } } := by
    unfold buildArtifactsContainerRepositoryFilters stringField boolField
    cases F.index "compartment_id" <;> cases F.index "display_name" <;>
      cases F.index "is_public" <;> cases F.index "lifecycle_state" <;> rfl
  have e2 : buildListCertificatesManagementAssociationFilters F =
        { CompartmentId := stringField F "compartment_id"
          CertificatesResourceId := stringField F "certificates_resource_id"
          AssociatedResourceId := stringField F "associated_resource_id"
          Name := stringField F "name"
          AssociationType := enumField F "association_type"
          Limit := none, Page := none, RequestMetadata := { RetryPolicy := none } } := by
    unfold buildListCertificatesManagementAssociationFilters stringField enumField
    cases F.index "compartment_id" <;> cases F.index "certificates_resource_id" <;>
      cases F.index "associated_resource_id" <;> cases F.index "name" <;>
      cases F.index "association_type" <;> rfl
  have e3 : buildListCertificatesManagementCertificateFilters F =
        { CompartmentId := stringField F "compartment_id"
          LifecycleState := enumField F "lifecycle_state"
          Name := stringField F "name"
          IssuerCertificateAuthorityId := stringField F "issuer_certificate_authority_id"
          Limit := none, Page := none, RequestMetadata := { RetryPolicy := none } } := by
    unfold buildListCertificatesManagementCertificateFilters stringField enumField
    cases F.index "compartment_id" <;> cases F.index "lifecycle_state" <;>
      cases F.index "name" <;> cases F.index "issuer_certificate_authority_id" <;> rfl
  refine ⟨⟨e1, ?_, ?_, ?_, ?_, ?_⟩, ⟨e2, ?_, ?_, ?_, ?_, ?_⟩, ⟨e3, ?_, ?_, ?_, ?_⟩⟩
  · rw [e1]; simp [stringField]
  · rw [e1]; simp [stringField]
  · rw [e1]; simp [boolField]
  · rw [e1]; simp [stringField]
  · unfold buildArtifactsContainerRepositoryFilters
    simp only [index_restrict F containerRepositoryKeys _ (by decide : "compartment_id" ∈ containerRepositoryKeys),
      index_restrict F containerRepositoryKeys _ (by decide : "display_name" ∈ containerRepositoryKeys),
      index_restrict F containerRepositoryKeys _ (by decide : "is_public" ∈ containerRepositoryKeys),
      index_restrict F containerRepositoryKeys _ (by decide : "lifecycle_state" ∈ containerRepositoryKeys)]
  · rw [e2]; simp [stringField]
  · rw [e2]; simp [stringField]
  · rw [e2]; simp [stringField]
  · rw [e2]; simp [stringField]
  · unfold buildListCertificatesManagementAssociationFilters
    simp only [index_restrict F associationKeys _ (by decide : "compartment_id" ∈ associationKeys),
      index_restrict F associationKeys _ (by decide : "certificates_resource_id" ∈ associationKeys),
      index_restrict F associationKeys _ (by decide : "associated_resource_id" ∈ associationKeys),
      index_restrict F associationKeys _ (by decide : "name" ∈ associationKeys),
      index_restrict F associationKeys _ (by decide : "association_type" ∈ associationKeys)]
  · rw [e3]; simp [stringField]
  · rw [e3]; simp [stringField]
  · rw [e3]; simp [stringField]
  · unfold buildListCertificatesManagementCertificateFilters
    simp only [index_restrict F certificateKeys _ (by decide : "compartment_id" ∈ certificateKeys),
      index_restrict F certificateKeys _ (by decide : "lifecycle_state" ∈ certificateKeys),
      index_restrict F certificateKeys _ (by decide : "name" ∈ certificateKeys),
      index_restrict F certificateKeys _ (by decide : "issuer_certificate_authority_id" ∈ certificateKeys)]

/-! ## Claims about the paginated listers -/

/-- C2: when the query carries a `compartment_id` filter whose value differs from the
iterated matrix compartment, each of the three list handlers returns `(nil, nil)` with an
empty effect trace: no error, no item streamed, no session created, no provider list
request issued. -/
theorem list_compartment_mismatch_short_circuits
    (artifactsService : String → Except Error ArtifactsSession)
    (certificatesManagementService : String → Except Error CertificatesManagementSession)
    (d : QueryData) (m : MatrixItem) (fuel : Nat) (q : QualValue)
    (hfilter : d.KeyColumnQuals.index "compartment_id" = some q)
    (hne : GetStringValue (some q) ≠ m.compartment) :
    listArtifactsContainerRepositories artifactsService d m fuel = ⟨[], .returned none none⟩
    ∧ listCertificatesManagementAssociations certificatesManagementService d m fuel
        = ⟨[], .returned none none⟩
    ∧ listCertificatesManagementCertificates certificatesManagementService d m fuel
        = ⟨[], .returned none none⟩ := by
  have hb : ((d.KeyColumnQuals.index "compartment_id").isSome
      && m.compartment != GetStringValue (d.KeyColumnQuals.index "compartment_id")) = true := by
    rw [hfilter]
    simp only [Option.isSome_some, Bool.true_and, bne_iff_ne, ne_eq]
    exact fun h => hne h.symm
  refine ⟨?_, ?_, ?_⟩
  · unfold listArtifactsContainerRepositories
    simp only [hb, if_true]
  · unfold listCertificatesManagementAssociations
    simp only [hb, if_true]
  · unfold listCertificatesManagementCertificates
    simp only [hb, if_true]

/-- Witness for C2: a filter on compartment `..a` while compartment `..b` is iterated. -/
theorem list_compartment_mismatch_short_circuits_witness :
    (sampleQuery [("compartment_id", .StringValue "ocid1.compartment.oc1..a")] 5).KeyColumnQuals.index
        "compartment_id" = some (.StringValue "ocid1.compartment.oc1..a")
    ∧ GetStringValue (some (.StringValue "ocid1.compartment.oc1..a"))
        ≠ (MatrixItem.mk "us-ashburn-1" "ocid1.compartment.oc1..b").compartment
    ∧ listArtifactsContainerRepositories (fun _ => .ok sampleArtifactsSession)
        (sampleQuery [("compartment_id", .StringValue "ocid1.compartment.oc1..a")] 5)
        ⟨"us-ashburn-1", "ocid1.compartment.oc1..b"⟩ 7 = ⟨[], .returned none none⟩
    ∧ listCertificatesManagementAssociations (fun _ => .ok sampleCertificatesSession)
        (sampleQuery [("compartment_id", .StringValue "ocid1.compartment.oc1..a")] 5)
        ⟨"us-ashburn-1", "ocid1.compartment.oc1..b"⟩ 7 = ⟨[], .returned none none⟩
    ∧ listCertificatesManagementCertificates (fun _ => .ok sampleCertificatesSession)
        (sampleQuery [("compartment_id", .StringValue "ocid1.compartment.oc1..a")] 5)
        ⟨"us-ashburn-1", "ocid1.compartment.oc1..b"⟩ 7 = ⟨[], .returned none none⟩ :=
  ⟨by decide, by decide,
    list_compartment_mismatch_short_circuits (fun _ => .ok sampleArtifactsSession)
      (fun _ => .ok sampleCertificatesSession)
      (sampleQuery [("compartment_id", .StringValue "ocid1.compartment.oc1..a")] 5)
      ⟨"us-ashburn-1", "ocid1.compartment.oc1..b"⟩ 7
      (.StringValue "ocid1.compartment.oc1..a") (by decide) (by decide)⟩

/-- The calls of `StreamListItem` under a row budget: for every session constructor,
provider, filter set, `LIMIT`, matrix entry and iteration allowance, and every row budget
`B` seen as a remaining-rows counter, a list handler calls `StreamListItem` at most
`max B 1` times: at most `B` times when `B ≥ 1`, and at most once when `B = 0`. -/
theorem list_stream_calls_within_budget
    (artifactsService : String → Except Error ArtifactsSession)
    (certificatesManagementService : String → Except Error CertificatesManagementSession)
    (quals : KeyColumnEqualsQualMap) (limit : Option Int) (policy : Option RetryPolicy)
    (m : MatrixItem) (fuel B : Nat) :
    (emitted (listArtifactsContainerRepositories artifactsService
        ⟨quals, limit, budgetCounter B, policy⟩ m fuel).trace).length ≤ max B 1
    ∧ (emitted (listCertificatesManagementAssociations certificatesManagementService
        ⟨quals, limit, budgetCounter B, policy⟩ m fuel).trace).length ≤ max B 1
    ∧ (emitted (listCertificatesManagementCertificates certificatesManagementService
        ⟨quals, limit, budgetCounter B, policy⟩ m fuel).trace).length ≤ max B 1 := by
  refine ⟨?_, ?_, ?_⟩
  · unfold listArtifactsContainerRepositories
    simp only
    split
    · simp [emitted]
    · split
      · simp [emitted]
      · rename_i session _
        simp only [emitted]
        have h := pageLoop_budget session.ListContainerRepositories
          (fun req page => { req with Page := page }) B fuel 0 0
        simp only [Nat.zero_add] at h
        exact h _
  · unfold listCertificatesManagementAssociations
    simp only
    split
    · simp [emitted]
    · split
      · simp [emitted]
      · rename_i session _
        simp only [emitted]
        have h := pageLoop_budget session.ListAssociations
          (fun req page => { req with Page := page }) B fuel 0 0
        simp only [Nat.zero_add] at h
        exact h _
  · unfold listCertificatesManagementCertificates
    simp only
    split
    · simp [emitted]
    · split
      · simp [emitted]
      · rename_i session _
        simp only [emitted]
        have h := pageLoop_budget session.ListCertificates
          (fun req page => { req with Page := page }) B fuel 0 0
        simp only [Nat.zero_add] at h
        exact h _

/-- C3: for every session constructor, provider (hence every sequence of page
responses), filter set, `LIMIT`, matrix entry and iteration allowance, and every row
budget `B` (a remaining-rows counter that each item handed to the consumer decrements,
`B = 0` included), the number of items a list handler emits to the consumer never exceeds
`B`.  The handler itself calls `StreamListItem` at most `max B 1` times, and for `B ≥ 1`
every one of its calls reaches the consumer; at `B = 0` the single call it may make before
it reads the counter reaches nobody, the host handing nothing over once no row remains. -/
theorem list_delivered_items_within_budget
    (artifactsService : String → Except Error ArtifactsSession)
    (certificatesManagementService : String → Except Error CertificatesManagementSession)
    (quals : KeyColumnEqualsQualMap) (limit : Option Int) (policy : Option RetryPolicy)
    (m : MatrixItem) (fuel B : Nat) :
    ((hostDeliver B (emitted (listArtifactsContainerRepositories artifactsService
          ⟨quals, limit, budgetCounter B, policy⟩ m fuel).trace)).length ≤ B
      ∧ (emitted (listArtifactsContainerRepositories artifactsService
          ⟨quals, limit, budgetCounter B, policy⟩ m fuel).trace).length ≤ max B 1
      ∧ (0 < B →
          hostDeliver B (emitted (listArtifactsContainerRepositories artifactsService
            ⟨quals, limit, budgetCounter B, policy⟩ m fuel).trace)
          = emitted (listArtifactsContainerRepositories artifactsService
            ⟨quals, limit, budgetCounter B, policy⟩ m fuel).trace))
    ∧ ((hostDeliver B (emitted (listCertificatesManagementAssociations
          certificatesManagementService
          ⟨quals, limit, budgetCounter B, policy⟩ m fuel).trace)).length ≤ B
      ∧ (emitted (listCertificatesManagementAssociations certificatesManagementService
          ⟨quals, limit, budgetCounter B, policy⟩ m fuel).trace).length ≤ max B 1
      ∧ (0 < B →
          hostDeliver B (emitted (listCertificatesManagementAssociations
            certificatesManagementService
            ⟨quals, limit, budgetCounter B, policy⟩ m fuel).trace)
          = emitted (listCertificatesManagementAssociations certificatesManagementService
            ⟨quals, limit, budgetCounter B, policy⟩ m fuel).trace))
    ∧ ((hostDeliver B (emitted (listCertificatesManagementCertificates
          certificatesManagementService
          ⟨quals, limit, budgetCounter B, policy⟩ m fuel).trace)).length ≤ B
      ∧ (emitted (listCertificatesManagementCertificates certificatesManagementService
          ⟨quals, limit, budgetCounter B, policy⟩ m fuel).trace).length ≤ max B 1
      ∧ (0 < B →
          hostDeliver B (emitted (listCertificatesManagementCertificates
            certificatesManagementService
            ⟨quals, limit, budgetCounter B, policy⟩ m fuel).trace)
          = emitted (listCertificatesManagementCertificates certificatesManagementService
            ⟨quals, limit, budgetCounter B, policy⟩ m fuel).trace)) := by
  obtain ⟨h1, h2, h3⟩ := list_stream_calls_within_budget artifactsService
    certificatesManagementService quals limit policy m fuel B
  refine ⟨⟨hostDeliver_length_le B _, h1, ?_⟩, ⟨hostDeliver_length_le B _, h2, ?_⟩,
    ⟨hostDeliver_length_le B _, h3, ?_⟩⟩
  · intro hB
    exact hostDeliver_eq_of_length_le B _ (by omega)
  · intro hB
    exact hostDeliver_eq_of_length_le B _ (by omega)
  · intro hB
    exact hostDeliver_eq_of_length_le B _ (by omega)

/-- Witness for C3: against the sample providers (two pages of two items), a budget of
three rows lets exactly the three streamed items reach the consumer, and a budget of zero
rows lets nothing reach the consumer although `StreamListItem` is called once. -/
theorem list_delivered_items_within_budget_witness :
    (emitted (listArtifactsContainerRepositories (fun _ => .ok sampleArtifactsSession)
        ⟨[], none, budgetCounter 3, none⟩ sampleMatrix 7).trace
      = [⟨some "repo1"⟩, ⟨some "repo2"⟩, ⟨some "repo3"⟩]
      ∧ hostDeliver 3 (emitted (listArtifactsContainerRepositories
          (fun _ => .ok sampleArtifactsSession)
          ⟨[], none, budgetCounter 3, none⟩ sampleMatrix 7).trace)
        = [⟨some "repo1"⟩, ⟨some "repo2"⟩, ⟨some "repo3"⟩])
    ∧ (emitted (listCertificatesManagementCertificates (fun _ => .ok sampleCertificatesSession)
        ⟨[], none, budgetCounter 0, none⟩ sampleMatrix 7).trace
      = [⟨some "cert1", none, none⟩]
      ∧ hostDeliver 0 (emitted (listCertificatesManagementCertificates
          (fun _ => .ok sampleCertificatesSession)
          ⟨[], none, budgetCounter 0, none⟩ sampleMatrix 7).trace) = []
      ∧ (hostDeliver 0 (emitted (listCertificatesManagementCertificates
          (fun _ => .ok sampleCertificatesSession)
          ⟨[], none, budgetCounter 0, none⟩ sampleMatrix 7).trace)).length ≤ 0) :=
  ⟨⟨by decide,
      ((list_delivered_items_within_budget (fun _ => .ok sampleArtifactsSession)
        (fun _ => .ok sampleCertificatesSession) [] none none sampleMatrix 7 3).1.2.2
        (by decide)).trans (by decide)⟩,
    ⟨by decide, by decide,
      (list_delivered_items_within_budget (fun _ => .ok sampleArtifactsSession)
        (fun _ => .ok sampleCertificatesSession) [] none none sampleMatrix 7 0).2.2.1⟩⟩

/-- C4: in every run of each list handler, once the remaining rows are seen to be zero
after an emission (the trace reads `pre ++ emit x :: post` and `RowsRemaining` answers 0
after that emission), nothing follows: `post` is empty, so no further item of the page is
streamed and no further page request is issued whatever next-page cursor the response
carried, and the handler has returned `(nil, nil)`. -/
theorem list_stops_at_zero_remaining_rows
    (artifactsService : String → Except Error ArtifactsSession)
    (certificatesManagementService : String → Except Error CertificatesManagementSession)
    (d : QueryData) (m : MatrixItem) (fuel : Nat) :
    (∀ pre x post,
      (listArtifactsContainerRepositories artifactsService d m fuel).trace
          = pre ++ .emit x :: post →
      d.RowsRemaining ((emitted pre).length + 1) = 0 →
      post = [] ∧ (listArtifactsContainerRepositories artifactsService d m fuel).status
          = .returned none none)
    ∧ (∀ pre x post,
      (listCertificatesManagementAssociations certificatesManagementService d m fuel).trace
          = pre ++ .emit x :: post →
      d.RowsRemaining ((emitted pre).length + 1) = 0 →
      post = [] ∧ (listCertificatesManagementAssociations certificatesManagementService d m
          fuel).status = .returned none none)
    ∧ (∀ pre x post,
      (listCertificatesManagementCertificates certificatesManagementService d m fuel).trace
          = pre ++ .emit x :: post →
      d.RowsRemaining ((emitted pre).length + 1) = 0 →
      post = [] ∧ (listCertificatesManagementCertificates certificatesManagementService d m
          fuel).status = .returned none none) := by
  refine ⟨?_, ?_, ?_⟩
  · intro pre x post h hz
    unfold listArtifactsContainerRepositories at h ⊢
    simp only at h ⊢
    by_cases hcond : ((d.KeyColumnQuals.index "compartment_id").isSome
        && m.compartment != GetStringValue (d.KeyColumnQuals.index "compartment_id")) = true
    · simp only [hcond, if_true] at h
      simp at h
    · simp only [hcond, Bool.false_eq_true, if_false] at h ⊢
      cases hsvc : artifactsService m.region with
      | error err =>
        simp only [hsvc] at h
        cases pre with
        | nil => simp at h
        | cons e pre' =>
          simp only [List.cons_append, List.cons.injEq] at h
          have := h.2
          simp at this
      | ok session =>
        simp only [hsvc] at h ⊢
        exact session_then_pageLoop_stop _ _ _ _ _ _ pre x post h hz
  · intro pre x post h hz
    unfold listCertificatesManagementAssociations at h ⊢
    simp only at h ⊢
    by_cases hcond : ((d.KeyColumnQuals.index "compartment_id").isSome
        && m.compartment != GetStringValue (d.KeyColumnQuals.index "compartment_id")) = true
    · simp only [hcond, if_true] at h
      simp at h
    · simp only [hcond, Bool.false_eq_true, if_false] at h ⊢
      cases hsvc : certificatesManagementService m.region with
      | error err =>
        simp only [hsvc] at h
        cases pre with
        | nil => simp at h
        | cons e pre' =>
          simp only [List.cons_append, List.cons.injEq] at h
          have := h.2
          simp at this
      | ok session =>
        simp only [hsvc] at h ⊢
        exact session_then_pageLoop_stop _ _ _ _ _ _ pre x post h hz
  · intro pre x post h hz
    unfold listCertificatesManagementCertificates at h ⊢
    simp only at h ⊢
    by_cases hcond : ((d.KeyColumnQuals.index "compartment_id").isSome
        && m.compartment != GetStringValue (d.KeyColumnQuals.index "compartment_id")) = true
    · simp only [hcond, if_true] at h
      simp at h
    · simp only [hcond, Bool.false_eq_true, if_false] at h ⊢
      cases hsvc : certificatesManagementService m.region with
      | error err =>
        simp only [hsvc] at h
        cases pre with
        | nil => simp at h
        | cons e pre' =>
          simp only [List.cons_append, List.cons.injEq] at h
          have := h.2
          simp at this
      | ok session =>
        simp only [hsvc] at h ⊢
        exact session_then_pageLoop_stop _ _ _ _ _ _ pre x post h hz

/-- Witness for C4: with a budget of three rows the sample providers (two pages of two
items) are stopped after the first item of the second page. -/
theorem list_stops_at_zero_remaining_rows_witness :
    ((listArtifactsContainerRepositories (fun _ => .ok sampleArtifactsSession)
          (sampleQuery [] 3) sampleMatrix 7).trace
        = sampleRepositoryPrefix ++ .emit ⟨some "repo3"⟩ :: []
      ∧ (sampleQuery [] 3).RowsRemaining ((emitted sampleRepositoryPrefix).length + 1) = 0
      ∧ (listArtifactsContainerRepositories (fun _ => .ok sampleArtifactsSession)
          (sampleQuery [] 3) sampleMatrix 7).status = .returned none none)
    ∧ ((listCertificatesManagementAssociations (fun _ => .ok sampleCertificatesSession)
          (sampleQuery [] 3) sampleMatrix 7).trace
        = sampleAssociationPrefix ++ .emit ⟨some "assoc3"⟩ :: []
      ∧ (sampleQuery [] 3).RowsRemaining ((emitted sampleAssociationPrefix).length + 1) = 0
      ∧ (listCertificatesManagementAssociations (fun _ => .ok sampleCertificatesSession)
          (sampleQuery [] 3) sampleMatrix 7).status = .returned none none)
    ∧ ((listCertificatesManagementCertificates (fun _ => .ok sampleCertificatesSession)
          (sampleQuery [] 3) sampleMatrix 7).trace
        = sampleCertificatePrefix ++ .emit ⟨some "cert3", none, none⟩ :: []
      ∧ (sampleQuery [] 3).RowsRemaining ((emitted sampleCertificatePrefix).length + 1) = 0
      ∧ (listCertificatesManagementCertificates (fun _ => .ok sampleCertificatesSession)
          (sampleQuery [] 3) sampleMatrix 7).status = .returned none none) :=
  ⟨⟨by decide, by decide,
      ((list_stops_at_zero_remaining_rows (fun _ => .ok sampleArtifactsSession)
        (fun _ => .ok sampleCertificatesSession) (sampleQuery [] 3) sampleMatrix 7).1
        sampleRepositoryPrefix ⟨some "repo3"⟩ [] (by decide) (by decide)).2⟩,
    ⟨by decide, by decide,
      ((list_stops_at_zero_remaining_rows (fun _ => .ok sampleArtifactsSession)
        (fun _ => .ok sampleCertificatesSession) (sampleQuery [] 3) sampleMatrix 7).2.1
        sampleAssociationPrefix ⟨some "assoc3"⟩ [] (by decide) (by decide)).2⟩,
    ⟨by decide, by decide,
      ((list_stops_at_zero_remaining_rows (fun _ => .ok sampleArtifactsSession)
        (fun _ => .ok sampleCertificatesSession) (sampleQuery [] 3) sampleMatrix 7).2.2
        sampleCertificatePrefix ⟨some "cert3", none, none⟩ [] (by decide) (by decide)).2⟩⟩

/-- C5: for each list handler, when the run reaches the pagination loop (no compartment
mismatch, session created), the provider serves a finite cursor chain (pages `nonfinal`,
each with the cursor of the next page, then `last` without cursor), the remaining rows are
never seen to be zero, and the iteration allowance covers the number of pages: the
handler ends with `(nil, nil)`, the cursors of its requests are, in order, none for the first
request and then the next-page cursor of each response (so there is exactly one request
per page), and the streamed items are the concatenation of the pages' items in response
order. -/
theorem list_follows_cursor_chain :
    (∀ (artifactsService : String → Except Error ArtifactsSession) (d : QueryData)
        (m : MatrixItem) (fuel : Nat) (session : ArtifactsSession)
        (nonfinal : List (List ContainerRepositorySummary × String))
        (last : List ContainerRepositorySummary),
      (∀ q, d.KeyColumnQuals.index "compartment_id" = some q →
        GetStringValue (some q) = m.compartment) →
      artifactsService m.region = .ok session →
      AnswersChain session.ListContainerRepositories (fun r => r.Page) none nonfinal last 0 →
      BudgetLasts d.RowsRemaining 0 (chainItems nonfinal last).length →
      nonfinal.length + 1 ≤ fuel →
      (listArtifactsContainerRepositories artifactsService d m fuel).status
          = .returned none none
      ∧ (requests (listArtifactsContainerRepositories artifactsService d m fuel).trace).map
          (fun r => r.Page) = chainCursors none nonfinal
      ∧ emitted (listArtifactsContainerRepositories artifactsService d m fuel).trace
          = chainItems nonfinal last
      ∧ sessions (listArtifactsContainerRepositories artifactsService d m fuel).trace = 1)
    ∧ (∀ (certificatesManagementService : String → Except Error CertificatesManagementSession)
        (d : QueryData) (m : MatrixItem) (fuel : Nat) (session : CertificatesManagementSession)
        (nonfinal : List (List AssociationSummary × String)) (last : List AssociationSummary),
      (∀ q, d.KeyColumnQuals.index "compartment_id" = some q →
        GetStringValue (some q) = m.compartment) →
      certificatesManagementService m.region = .ok session →
      AnswersChain session.ListAssociations (fun r => r.Page) none nonfinal last 0 →
      BudgetLasts d.RowsRemaining 0 (chainItems nonfinal last).length →
      nonfinal.length + 1 ≤ fuel →
      (listCertificatesManagementAssociations certificatesManagementService d m fuel).status
          = .returned none none
      ∧ (requests (listCertificatesManagementAssociations certificatesManagementService d m
          fuel).trace).map (fun r => r.Page) = chainCursors none nonfinal
      ∧ emitted (listCertificatesManagementAssociations certificatesManagementService d m
          fuel).trace = chainItems nonfinal last
      ∧ sessions (listCertificatesManagementAssociations certificatesManagementService d m
          fuel).trace = 1)
    ∧ (∀ (certificatesManagementService : String → Except Error CertificatesManagementSession)
        (d : QueryData) (m : MatrixItem) (fuel : Nat) (session : CertificatesManagementSession)
        (nonfinal : List (List CertificateSummary × String)) (last : List CertificateSummary),
      (∀ q, d.KeyColumnQuals.index "compartment_id" = some q →
        GetStringValue (some q) = m.compartment) →
      certificatesManagementService m.region = .ok session →
      AnswersChain session.ListCertificates (fun r => r.Page) none nonfinal last 0 →
      BudgetLasts d.RowsRemaining 0 (chainItems nonfinal last).length →
      nonfinal.length + 1 ≤ fuel →
      (listCertificatesManagementCertificates certificatesManagementService d m fuel).status
          = .returned none none
      ∧ (requests (listCertificatesManagementCertificates certificatesManagementService d m
          fuel).trace).map (fun r => r.Page) = chainCursors none nonfinal
      ∧ emitted (listCertificatesManagementCertificates certificatesManagementService d m
          fuel).trace = chainItems nonfinal last
      ∧ sessions (listCertificatesManagementCertificates certificatesManagementService d m
          fuel).trace = 1) := by
  refine ⟨?_, ?_, ?_⟩
  · intro svc d m fuel session nonfinal last hscope hsvc hserve hbudget hfuel
    have hcond := compartment_check_passes d m hscope
    unfold listArtifactsContainerRepositories
    simp only [hcond, Bool.false_eq_true, if_false, hsvc]
    have hpage : ∀ r : ListContainerRepositoriesRequest, r.Page = none →
        (match d.Limit with
          | some limit => if limit < 100 then { r with Limit := some limit } else r
          | none => r).Page = none := by
      intro r hr
      cases d.Limit with
      | none => exact hr
      | some limit => by_cases hl : limit < 100 <;> simp [hl, hr]
    exact session_then_pageLoop_chain session.ListContainerRepositories
      (fun req page => { req with Page := page }) (fun r => r.Page) (fun _ _ => rfl)
      d.RowsRemaining last nonfinal fuel _ m.region
      (hpage _ (buildArtifactsContainerRepositoryFilters_Page d.KeyColumnQuals)) hfuel hserve hbudget
  · intro svc d m fuel session nonfinal last hscope hsvc hserve hbudget hfuel
    have hcond := compartment_check_passes d m hscope
    unfold listCertificatesManagementAssociations
    simp only [hcond, Bool.false_eq_true, if_false, hsvc]
    have hpage : ∀ r : ListAssociationsRequest, r.Page = none →
        (match d.Limit with
          | some limit => if limit < 20 then { r with Limit := some limit } else r
          | none => r).Page = none := by
      intro r hr
      cases d.Limit with
      | none => exact hr
      | some limit => by_cases hl : limit < 20 <;> simp [hl, hr]
    exact session_then_pageLoop_chain session.ListAssociations
      (fun req page => { req with Page := page }) (fun r => r.Page) (fun _ _ => rfl)
      d.RowsRemaining last nonfinal fuel _ m.region
      (hpage _ (buildListCertificatesManagementAssociationFilters_Page d.KeyColumnQuals)) hfuel hserve hbudget
  · intro svc d m fuel session nonfinal last hscope hsvc hserve hbudget hfuel
    have hcond := compartment_check_passes d m hscope
    unfold listCertificatesManagementCertificates
    simp only [hcond, Bool.false_eq_true, if_false, hsvc]
    have hpage : ∀ r : ListCertificatesRequest, r.Page = none →
        (match d.Limit with
          | some limit => if limit < 20 then { r with Limit := some limit } else r
          | none => r).Page = none := by
      intro r hr
      cases d.Limit with
      | none => exact hr
      | some limit => by_cases hl : limit < 20 <;> simp [hl, hr]
    exact session_then_pageLoop_chain session.ListCertificates
      (fun req page => { req with Page := page }) (fun r => r.Page) (fun _ _ => rfl)
      d.RowsRemaining last nonfinal fuel _ m.region
      (hpage _ (buildListCertificatesManagementCertificateFilters_Page d.KeyColumnQuals)) hfuel hserve hbudget

/-- Witness for C5: the sample providers serve a chain of two pages; with a budget of ten
rows each handler requests both pages in cursor order and streams the four items. -/
theorem list_follows_cursor_chain_witness :
    ((listArtifactsContainerRepositories (fun _ => .ok sampleArtifactsSession)
          (sampleQuery [] 10) sampleMatrix 7).status = .returned none none
      ∧ (requests (listArtifactsContainerRepositories (fun _ => .ok sampleArtifactsSession)
          (sampleQuery [] 10) sampleMatrix 7).trace).map (fun r => r.Page)
          = [none, some "page2"]
      ∧ emitted (listArtifactsContainerRepositories (fun _ => .ok sampleArtifactsSession)
          (sampleQuery [] 10) sampleMatrix 7).trace
          = [⟨some "repo1"⟩, ⟨some "repo2"⟩, ⟨some "repo3"⟩, ⟨some "repo4"⟩]
      ∧ sessions (listArtifactsContainerRepositories (fun _ => .ok sampleArtifactsSession)
          (sampleQuery [] 10) sampleMatrix 7).trace = 1)
    ∧ ((listCertificatesManagementAssociations (fun _ => .ok sampleCertificatesSession)
          (sampleQuery [] 10) sampleMatrix 7).status = .returned none none
      ∧ (requests (listCertificatesManagementAssociations (fun _ => .ok sampleCertificatesSession)
          (sampleQuery [] 10) sampleMatrix 7).trace).map (fun r => r.Page)
          = [none, some "page2"]
      ∧ emitted (listCertificatesManagementAssociations (fun _ => .ok sampleCertificatesSession)
          (sampleQuery [] 10) sampleMatrix 7).trace
          = [⟨some "assoc1"⟩, ⟨some "assoc2"⟩, ⟨some "assoc3"⟩, ⟨some "assoc4"⟩]
      ∧ sessions (listCertificatesManagementAssociations (fun _ => .ok sampleCertificatesSession)
          (sampleQuery [] 10) sampleMatrix 7).trace = 1)
    ∧ ((listCertificatesManagementCertificates (fun _ => .ok sampleCertificatesSession)
          (sampleQuery [] 10) sampleMatrix 7).status = .returned none none
      ∧ (requests (listCertificatesManagementCertificates (fun _ => .ok sampleCertificatesSession)
          (sampleQuery [] 10) sampleMatrix 7).trace).map (fun r => r.Page)
          = [none, some "page2"]
      ∧ emitted (listCertificatesManagementCertificates (fun _ => .ok sampleCertificatesSession)
          (sampleQuery [] 10) sampleMatrix 7).trace
          = [⟨some "cert1", none, none⟩, ⟨some "cert2", none, none⟩,
              ⟨some "cert3", none, none⟩, ⟨some "cert4", none, none⟩]
      ∧ sessions (listCertificatesManagementCertificates (fun _ => .ok sampleCertificatesSession)
          (sampleQuery [] 10) sampleMatrix 7).trace = 1) :=
  ⟨list_follows_cursor_chain.1 (fun _ => .ok sampleArtifactsSession) (sampleQuery [] 10)
      sampleMatrix 7 sampleArtifactsSession [([⟨some "repo1"⟩, ⟨some "repo2"⟩], "page2")]
      [⟨some "repo3"⟩, ⟨some "repo4"⟩]
      (by intro q hq; simp [sampleQuery, KeyColumnEqualsQualMap.index] at hq)
      rfl
      (by
        intro k resp c r hp hc hr
        match k with
        | 0 =>
          simp [chainPages] at hp
          simp [chainCursors] at hc
          subst hp hc
          simp [sampleArtifactsSession, hr]
        | 1 =>
          simp [chainPages] at hp
          simp [chainCursors] at hc
          subst hp hc
          simp [sampleArtifactsSession, hr]
        | k + 2 => simp [chainPages] at hp)
      (by
        intro i _ hi
        simp [chainItems] at hi
        simp only [sampleQuery, budgetCounter]
        omega)
      (by decide),
    list_follows_cursor_chain.2.1 (fun _ => .ok sampleCertificatesSession) (sampleQuery [] 10)
      sampleMatrix 7 sampleCertificatesSession [([⟨some "assoc1"⟩, ⟨some "assoc2"⟩], "page2")]
      [⟨some "assoc3"⟩, ⟨some "assoc4"⟩]
      (by intro q hq; simp [sampleQuery, KeyColumnEqualsQualMap.index] at hq)
      rfl
      (by
        intro k resp c r hp hc hr
        match k with
        | 0 =>
          simp [chainPages] at hp
          simp [chainCursors] at hc
          subst hp hc
          simp [sampleCertificatesSession, hr]
        | 1 =>
          simp [chainPages] at hp
          simp [chainCursors] at hc
          subst hp hc
          simp [sampleCertificatesSession, hr]
        | k + 2 => simp [chainPages] at hp)
      (by
        intro i _ hi
        simp [chainItems] at hi
        simp only [sampleQuery, budgetCounter]
        omega)
      (by decide),
    list_follows_cursor_chain.2.2 (fun _ => .ok sampleCertificatesSession) (sampleQuery [] 10)
      sampleMatrix 7 sampleCertificatesSession
      [([⟨some "cert1", none, none⟩, ⟨some "cert2", none, none⟩], "page2")]
      [⟨some "cert3", none, none⟩, ⟨some "cert4", none, none⟩]
      (by intro q hq; simp [sampleQuery, KeyColumnEqualsQualMap.index] at hq)
      rfl
      (by
        intro k resp c r hp hc hr
        match k with
        | 0 =>
          simp [chainPages] at hp
          simp [chainCursors] at hc
          subst hp hc
          simp [sampleCertificatesSession, hr]
        | 1 =>
          simp [chainPages] at hp
          simp [chainCursors] at hc
          subst hp hc
          simp [sampleCertificatesSession, hr]
        | k + 2 => simp [chainPages] at hp)
      (by
        intro i _ hi
        simp [chainItems] at hi
        simp only [sampleQuery, budgetCounter]
        omega)
      (by decide)⟩

/-- C6: in every run of each list handler, a provider page request that returns an error
`e` (the request `r` found in the trace after `pre`, the call being the one numbered by
the requests already made) is the last effect of the run: nothing is streamed and no
request is issued after it, the same request is not issued again, the handler returns
`(nil, e)`, and the streamed items are exactly the items of the responses to the earlier
requests. -/
theorem list_propagates_request_error :
    (∀ (artifactsService : String → Except Error ArtifactsSession) (d : QueryData) (m : MatrixItem)
        (fuel : Nat) (session : ArtifactsSession) pre r post (e : Error),
      artifactsService m.region = .ok session →
      (listArtifactsContainerRepositories artifactsService d m fuel).trace = pre ++ .request r :: post →
      session.ListContainerRepositories (requests pre).length r = .error e →
      post = []
      ∧ (listArtifactsContainerRepositories artifactsService d m fuel).status = .returned none (some e)
      ∧ emitted (listArtifactsContainerRepositories artifactsService d m fuel).trace
          = responseItems session.ListContainerRepositories 0 (requests pre))
    ∧ (∀ (certificatesManagementService : String → Except Error CertificatesManagementSession) (d : QueryData) (m : MatrixItem)
        (fuel : Nat) (session : CertificatesManagementSession) pre r post (e : Error),
      certificatesManagementService m.region = .ok session →
      (listCertificatesManagementAssociations certificatesManagementService d m fuel).trace = pre ++ .request r :: post →
      session.ListAssociations (requests pre).length r = .error e →
      post = []
      ∧ (listCertificatesManagementAssociations certificatesManagementService d m fuel).status = .returned none (some e)
      ∧ emitted (listCertificatesManagementAssociations certificatesManagementService d m fuel).trace
          = responseItems session.ListAssociations 0 (requests pre))
    ∧ (∀ (certificatesManagementService : String → Except Error CertificatesManagementSession) (d : QueryData) (m : MatrixItem)
        (fuel : Nat) (session : CertificatesManagementSession) pre r post (e : Error),
      certificatesManagementService m.region = .ok session →
      (listCertificatesManagementCertificates certificatesManagementService d m fuel).trace = pre ++ .request r :: post →
      session.ListCertificates (requests pre).length r = .error e →
      post = []
      ∧ (listCertificatesManagementCertificates certificatesManagementService d m fuel).status = .returned none (some e)
      ∧ emitted (listCertificatesManagementCertificates certificatesManagementService d m fuel).trace
          = responseItems session.ListCertificates 0 (requests pre)) := by
  refine ⟨?_, ?_, ?_⟩
  · intro svc d m fuel session pre r post e hsvc h he
    have hem : emitted (listArtifactsContainerRepositories svc d m fuel).trace = emitted pre ++ emitted post := by
      rw [h]
      simp [emitted]
    rw [hem]
    unfold listArtifactsContainerRepositories at h ⊢
    simp only at h ⊢
    by_cases hcond : ((d.KeyColumnQuals.index "compartment_id").isSome
        && m.compartment != GetStringValue (d.KeyColumnQuals.index "compartment_id")) = true
    · simp only [hcond, if_true] at h
      simp at h
    · simp only [hcond, Bool.false_eq_true, if_false, hsvc] at h ⊢
      obtain ⟨h1, h2, h3⟩ := session_then_pageLoop_error _ _ _ _ _ _ pre r post e h he
      subst h1
      exact ⟨rfl, h2, by simpa [emitted] using h3⟩
  · intro svc d m fuel session pre r post e hsvc h he
    have hem : emitted (listCertificatesManagementAssociations svc d m fuel).trace = emitted pre ++ emitted post := by
      rw [h]
      simp [emitted]
    rw [hem]
    unfold listCertificatesManagementAssociations at h ⊢
    simp only at h ⊢
    by_cases hcond : ((d.KeyColumnQuals.index "compartment_id").isSome
        && m.compartment != GetStringValue (d.KeyColumnQuals.index "compartment_id")) = true
    · simp only [hcond, if_true] at h
      simp at h
    · simp only [hcond, Bool.false_eq_true, if_false, hsvc] at h ⊢
      obtain ⟨h1, h2, h3⟩ := session_then_pageLoop_error _ _ _ _ _ _ pre r post e h he
      subst h1
      exact ⟨rfl, h2, by simpa [emitted] using h3⟩
  · intro svc d m fuel session pre r post e hsvc h he
    have hem : emitted (listCertificatesManagementCertificates svc d m fuel).trace = emitted pre ++ emitted post := by
      rw [h]
      simp [emitted]
    rw [hem]
    unfold listCertificatesManagementCertificates at h ⊢
    simp only at h ⊢
    by_cases hcond : ((d.KeyColumnQuals.index "compartment_id").isSome
        && m.compartment != GetStringValue (d.KeyColumnQuals.index "compartment_id")) = true
    · simp only [hcond, if_true] at h
      simp at h
    · simp only [hcond, Bool.false_eq_true, if_false, hsvc] at h ⊢
      obtain ⟨h1, h2, h3⟩ := session_then_pageLoop_error _ _ _ _ _ _ pre r post e h he
      subst h1
      exact ⟨rfl, h2, by simpa [emitted] using h3⟩

/-- Witness for C6: the failing sample providers answer the first request with a page of
two items and a cursor, and fail on the second request. -/
theorem list_propagates_request_error_witness :
    ((listArtifactsContainerRepositories (fun _ => .ok failingArtifactsSession)
          (sampleQuery [] 10) sampleMatrix 7).status
        = .returned none (some "ServiceUnavailable")
      ∧ emitted (listArtifactsContainerRepositories (fun _ => .ok failingArtifactsSession)
          (sampleQuery [] 10) sampleMatrix 7).trace = [⟨some "repo1"⟩, ⟨some "repo2"⟩])
    ∧ ((listCertificatesManagementAssociations (fun _ => .ok failingCertificatesSession)
          (sampleQuery [] 10) sampleMatrix 7).status
        = .returned none (some "ServiceUnavailable")
      ∧ emitted (listCertificatesManagementAssociations (fun _ => .ok failingCertificatesSession)
          (sampleQuery [] 10) sampleMatrix 7).trace = [⟨some "assoc1"⟩, ⟨some "assoc2"⟩])
    ∧ ((listCertificatesManagementCertificates (fun _ => .ok failingCertificatesSession)
          (sampleQuery [] 10) sampleMatrix 7).status
        = .returned none (some "ServiceUnavailable")
      ∧ emitted (listCertificatesManagementCertificates (fun _ => .ok failingCertificatesSession)
          (sampleQuery [] 10) sampleMatrix 7).trace
          = [⟨some "cert1", none, none⟩, ⟨some "cert2", none, none⟩]) :=
  ⟨(list_propagates_request_error.1 (fun _ => .ok failingArtifactsSession)
      (sampleQuery [] 10) sampleMatrix 7 failingArtifactsSession
      [.session "us-ashburn-1", .request sampleRepositoryRequest,
        .emit ⟨some "repo1"⟩, .emit ⟨some "repo2"⟩]
      { sampleRepositoryRequest with Page := some "page2" } [] "ServiceUnavailable"
      rfl (by decide) rfl).2,
    (list_propagates_request_error.2.1 (fun _ => .ok failingCertificatesSession)
      (sampleQuery [] 10) sampleMatrix 7 failingCertificatesSession
      [.session "us-ashburn-1", .request sampleAssociationRequest,
        .emit ⟨some "assoc1"⟩, .emit ⟨some "assoc2"⟩]
      { sampleAssociationRequest with Page := some "page2" } [] "ServiceUnavailable"
      rfl (by decide) rfl).2,
    (list_propagates_request_error.2.2 (fun _ => .ok failingCertificatesSession)
      (sampleQuery [] 10) sampleMatrix 7 failingCertificatesSession
      [.session "us-ashburn-1", .request sampleCertificateRequest,
        .emit ⟨some "cert1", none, none⟩, .emit ⟨some "cert2", none, none⟩]
      { sampleCertificateRequest with Page := some "page2" } [] "ServiceUnavailable"
      rfl (by decide) rfl).2⟩

/-! ## Claims about the single-item fetchers -/

/-- C7 (the code at the failing input): in the tenancy root compartment, with no hydrated
item and the empty string as `id` filter, `getCertificatesManagementAssociation` and
`getCertificatesManagementCertificate` create a session and issue a provider get request
whose identifier is the empty string, returning what the provider answers, whereas
`getArtifactsContainerRepository` returns `(nil, nil)` without any effect. -/
theorem get_with_empty_id_calls_provider :
    getCertificatesManagementAssociation (fun _ => .ok sampleCertificatesSession)
        (sampleQuery [("id", .StringValue "")] 5) rawGet rootMatrix
      = ⟨[.session "us-ashburn-1",
            .request { AssociationId := some "", RequestMetadata := { RetryPolicy := some ⟨3⟩ } }],
          .returned (some ⟨some ""⟩) none⟩
    ∧ getCertificatesManagementCertificate (fun _ => .ok sampleCertificatesSession)
        (sampleQuery [("id", .StringValue "")] 5) rawGet rootMatrix
      = ⟨[.session "us-ashburn-1",
            .request { CertificateId := some "", RequestMetadata := { RetryPolicy := some ⟨3⟩ } }],
          .returned (some ⟨some "", none, none⟩) none⟩
    ∧ getArtifactsContainerRepository (fun _ => .ok sampleArtifactsSession)
        (sampleQuery [("id", .StringValue "")] 5) rawGet rootMatrix
      = ⟨[], .returned none none⟩ := by
  refine ⟨?_, ?_, ?_⟩ <;> decide

/-- C8 (as stated, refuted): with a hydrated summary item and an active compartment that
does not start with `ocid1.tenancy.oc1`, `getCertificatesManagementCertificate` and
`getArtifactsContainerRepository` skip the compartment check, create a session and issue
the provider get request. -/
theorem get_with_hydrated_item_skips_compartment_check :
    HasPrefix sampleMatrix.compartment "ocid1.tenancy.oc1" = false
    ∧ getCertificatesManagementCertificate (fun _ => .ok sampleCertificatesSession)
        (sampleQuery [] 5) ⟨some (.certificateSummary ⟨some "ocid1.certificate.oc1..x", none, none⟩)⟩
        sampleMatrix
      = ⟨[.session "us-ashburn-1",
            .request { CertificateId := some "ocid1.certificate.oc1..x",
                       RequestMetadata := { RetryPolicy := some ⟨3⟩ } }],
          .returned (some ⟨some "ocid1.certificate.oc1..x", none, none⟩) none⟩
    ∧ getArtifactsContainerRepository (fun _ => .ok sampleArtifactsSession)
        (sampleQuery [] 5) ⟨some (.containerRepositorySummary ⟨some "ocid1.containerrepo.oc1..x"⟩)⟩
        sampleMatrix
      = ⟨[.session "us-ashburn-1",
            .request { RepositoryId := some "ocid1.containerrepo.oc1..x",
                       RequestMetadata := { RetryPolicy := some ⟨3⟩ } }],
          .returned (some ⟨some "ocid1.containerrepo.oc1..x"⟩) none⟩ := by
  refine ⟨?_, ?_, ?_⟩ <;> decide

/-- C8 (amended): whenever the active compartment does not start with the tenancy-root
prefix `ocid1.tenancy.oc1`, `getCertificatesManagementAssociation` returns `(nil, nil)`
without any effect for every input, hydrated item or not, and
`getArtifactsContainerRepository` and `getCertificatesManagementCertificate` do so when the
identifier comes from the raw `id` filter, that is when no hydrated item is present. -/
theorem get_outside_tenancy_root_is_empty
    (artifactsService : String → Except Error ArtifactsSession)
    (certificatesManagementService : String → Except Error CertificatesManagementSession)
    (d : QueryData) (h : HydrateData) (m : MatrixItem)
    (hroot : HasPrefix m.compartment "ocid1.tenancy.oc1" = false) :
    getCertificatesManagementAssociation certificatesManagementService d h m
      = ⟨[], .returned none none⟩
    ∧ (h.Item = none →
        getArtifactsContainerRepository artifactsService d h m = ⟨[], .returned none none⟩)
    ∧ (h.Item = none →
        getCertificatesManagementCertificate certificatesManagementService d h m
          = ⟨[], .returned none none⟩) := by
  refine ⟨?_, ?_, ?_⟩
  · unfold getCertificatesManagementAssociation
    simp [hroot]
  · intro hitem
    unfold getArtifactsContainerRepository
    simp [hitem, hroot]
  · intro hitem
    unfold getCertificatesManagementCertificate
    simp [hitem, hroot]

/-- Witness for C8 (amended): raw get calls while compartment `..b` is the active one. -/
theorem get_outside_tenancy_root_is_empty_witness :
    HasPrefix sampleMatrix.compartment "ocid1.tenancy.oc1" = false
    ∧ getCertificatesManagementAssociation (fun _ => .ok sampleCertificatesSession)
        (sampleQuery [("id", .StringValue "ocid1.certificateassociation.oc1..x")] 5) rawGet
        sampleMatrix = ⟨[], .returned none none⟩
    ∧ getArtifactsContainerRepository (fun _ => .ok sampleArtifactsSession)
        (sampleQuery [("id", .StringValue "ocid1.certificateassociation.oc1..x")] 5) rawGet
        sampleMatrix = ⟨[], .returned none none⟩
    ∧ getCertificatesManagementCertificate (fun _ => .ok sampleCertificatesSession)
        (sampleQuery [("id", .StringValue "ocid1.certificateassociation.oc1..x")] 5) rawGet
        sampleMatrix = ⟨[], .returned none none⟩ :=
  have key := get_outside_tenancy_root_is_empty (fun _ => .ok sampleArtifactsSession)
    (fun _ => .ok sampleCertificatesSession)
    (sampleQuery [("id", .StringValue "ocid1.certificateassociation.oc1..x")] 5) rawGet
    sampleMatrix (by decide)
  ⟨by decide, key.1, key.2.1 rfl, key.2.2 rfl⟩

/-! ## Claims about tag merging -/

/-- C9: for a `Certificate` or `CertificateSummary` record with at least one of the two
tag maps present, `certificatesManagementCertificateTags` returns no error and a merged
map whose keys are exactly the free-form keys together with the inner keys of
the defined-tag namespaces; a key found only in the free-form tags maps to its free-form
value; a key found in some defined-tag namespace maps to a value some namespace gives it,
hence not to the free-form value whenever no namespace gives it that value. -/
theorem certificate_tags_merge (d : TransformData) (id : Option String)
    (free : Option (GoMap String)) (defined : Option (GoMap (GoMap Value)))
    (hd : d = ⟨some (.certificate ⟨id, free, defined⟩)⟩
      ∨ d = ⟨some (.certificateSummary ⟨id, free, defined⟩)⟩)
    (hpresent : free.isSome = true ∨ defined.isSome = true)
    (hwf : (free.getD []).WF) :
    (certificatesManagementCertificateTags d).2 = none
    ∧ ∃ tags, (certificatesManagementCertificateTags d).1 = some tags
      ∧ (∀ k, k ∈ tags.keys ↔
          k ∈ (free.getD []).keys ∨ ∃ ns ∈ defined.getD [], k ∈ ns.2.keys)
      ∧ (∀ k x, (k, x) ∈ free.getD [] → (∀ ns ∈ defined.getD [], k ∉ ns.2.keys) →
          tags.index k = some (.string x))
      ∧ (∀ k, (∃ ns ∈ defined.getD [], k ∈ ns.2.keys) →
          ∃ ns ∈ defined.getD [], ∃ x, (k, x) ∈ ns.2 ∧ tags.index k = some x)
      ∧ (∀ k y, (k, y) ∈ free.getD [] → (∃ ns ∈ defined.getD [], k ∈ ns.2.keys) →
          (∀ ns ∈ defined.getD [], (k, Value.string y) ∉ ns.2) →
          tags.index k ≠ some (.string y)) := by
  rw [certificatesManagementCertificateTags_eq d id free defined hd hpresent]
  refine ⟨rfl, _, rfl, ?_, ?_, ?_, ?_⟩
  · intro k
    rw [copyDefinedTags_mem_keys, copyFreeformTags_mem_keys]
    constructor
    · rintro (h | h | h)
      · exact Or.inr h
      · exact Or.inl h
      · simp [GoMap.keys] at h
    · rintro (h | h)
      · exact Or.inr (Or.inl h)
      · exact Or.inl h
  · intro k x hx hnot
    rw [copyDefinedTags_index_of_not_mem _ _ k hnot]
    exact copyFreeformTags_index_of_entry _ hwf [] k x hx
  · intro k hk
    exact copyDefinedTags_index_of_mem _ _ k hk
  · intro k y _ hk hne heq
    obtain ⟨ns, hns, x, hx, hi⟩ := copyDefinedTags_index_of_mem (defined.getD [])
      (copyFreeformTags (free.getD []) []) k hk
    rw [hi] at heq
    simp only [Option.some.injEq] at heq
    subst heq
    exact hne ns hns hx

/-- Witness for C9: a certificate with free-form tags `env`, `owner` and one defined-tag
group holding `CostCenter`, `owner`; the defined `owner` wins. -/
theorem certificate_tags_merge_witness :
    (certificatesManagementCertificateTags
        ⟨some (.certificate ⟨some "ocid1.certificate.oc1..x", some sampleFreeformTags,
          some sampleDefinedTags⟩)⟩).1
      = some [("env", .string "prod"), ("owner", .string "bob"), ("CostCenter", .string "42")]
    ∧ (certificatesManagementCertificateTags
        ⟨some (.certificate ⟨some "ocid1.certificate.oc1..x", some sampleFreeformTags,
          some sampleDefinedTags⟩)⟩).2 = none :=
  ⟨by decide,
    (certificate_tags_merge
      ⟨some (.certificate ⟨some "ocid1.certificate.oc1..x", some sampleFreeformTags,
        some sampleDefinedTags⟩)⟩
      (some "ocid1.certificate.oc1..x") (some sampleFreeformTags) (some sampleDefinedTags)
      (Or.inl rfl) (Or.inl rfl) (by decide)).1⟩

/-- C10 (as stated, refuted): two defined-tag namespaces hold the key `CostCenter`, and
`Finance` was inserted last.  When `range` visits `Finance` first, the merged value is the
one of `Operations`, not the one of the namespace inserted last; when it visits the same
map in the other order, the merged value is the one of `Finance`.  The merged mapping is
therefore not a function of the record alone. -/
theorem defined_tag_collision_depends_on_visit_order :
    collidingDefinedTagsOtherVisit.Perm collidingDefinedTags
    ∧ (certificatesManagementCertificateTags
        ⟨some (.certificate ⟨none, none, some collidingDefinedTagsOtherVisit⟩)⟩).1
      = some [("CostCenter", .string "42")]
    ∧ (certificatesManagementCertificateTags
        ⟨some (.certificate ⟨none, none, some collidingDefinedTags⟩)⟩).1
      = some [("CostCenter", .string "7")] := by
  refine ⟨?_, ?_, ?_⟩
  · exact List.Perm.swap _ _ _
  · decide
  · decide

/-- C10 (amended): when defined-tag namespaces contain the same inner key, the merged
value of that key is the value from the namespace that the iteration over the defined-tag
map visits last among those containing it: if the namespaces are visited in the order
`pre ++ (ns, v) :: post`, `v` gives `k` the value `x` and no namespace of `post` contains
`k`, the merged map gives `k` the value `x`. -/
theorem defined_tag_collision_last_visited_wins (d : TransformData) (id : Option String)
    (free : Option (GoMap String)) (pre post : GoMap (GoMap Value)) (ns : String)
    (v : GoMap Value) (k : String) (x : Value)
    (hd : d = ⟨some (.certificate ⟨id, free, some (pre ++ (ns, v) :: post)⟩)⟩
      ∨ d = ⟨some (.certificateSummary ⟨id, free, some (pre ++ (ns, v) :: post)⟩)⟩)
    (hwf : v.WF) (hx : (k, x) ∈ v) (hpost : ∀ p ∈ post, k ∉ p.2.keys) :
    ∃ tags, (certificatesManagementCertificateTags d).1 = some tags
      ∧ tags.index k = some x := by
  rw [certificatesManagementCertificateTags_eq d id free _ hd (Or.inr rfl)]
  refine ⟨_, rfl, ?_⟩
  simp only [Option.getD_some]
  rw [copyDefinedTags_append]
  show (copyDefinedTags post (copyNamespace v _)).index k = some x
  rw [copyDefinedTags_index_of_not_mem post _ k hpost]
  exact copyNamespace_index_of_entry v hwf _ k x hx

/-- Witness for C10 (amended): `Finance` visited after `Operations` gives `CostCenter` its
value. -/
theorem defined_tag_collision_last_visited_wins_witness :
    ∃ tags, (certificatesManagementCertificateTags
        ⟨some (.certificate ⟨none, some sampleFreeformTags, some collidingDefinedTags⟩)⟩).1
        = some tags
      ∧ tags.index "CostCenter" = some (.string "7") :=
  defined_tag_collision_last_visited_wins
    ⟨some (.certificate ⟨none, some sampleFreeformTags, some collidingDefinedTags⟩)⟩ none
    (some sampleFreeformTags) [("Operations", [("CostCenter", .string "42")])] [] "Finance"
    [("CostCenter", .string "7")] "CostCenter" (.string "7")
    (Or.inl rfl) (by decide) (by decide) (by decide)

/-! ## Further claims about the paginated listers -/

/-- C11: every request a list handler issues carries as page size the endpoint default
(100 for container repositories, 20 for associations and certificates) when the query has
no row limit or a row limit at least the default, and the row limit `L` when `L` is below
the default; that is `min default L` whenever a row limit `L` is present. -/
theorem list_page_size_is_clamped_default :
    (∀ (artifactsService : String → Except Error ArtifactsSession) (d : QueryData) (m : MatrixItem)
        (fuel : Nat) (r : ListContainerRepositoriesRequest),
      r ∈ requests (listArtifactsContainerRepositories artifactsService d m fuel).trace →
      (d.Limit = none → r.Limit = some 100)
      ∧ (∀ L, d.Limit = some L → 100 ≤ L → r.Limit = some 100)
      ∧ (∀ L, d.Limit = some L → L < 100 → r.Limit = some L)
      ∧ (∀ L, d.Limit = some L → r.Limit = some (min 100 L)))
    ∧ (∀ (certificatesManagementService : String → Except Error CertificatesManagementSession) (d : QueryData) (m : MatrixItem)
        (fuel : Nat) (r : ListAssociationsRequest),
      r ∈ requests (listCertificatesManagementAssociations certificatesManagementService d m fuel).trace →
      (d.Limit = none → r.Limit = some 20)
      ∧ (∀ L, d.Limit = some L → 20 ≤ L → r.Limit = some 20)
      ∧ (∀ L, d.Limit = some L → L < 20 → r.Limit = some L)
      ∧ (∀ L, d.Limit = some L → r.Limit = some (min 20 L)))
    ∧ (∀ (certificatesManagementService : String → Except Error CertificatesManagementSession) (d : QueryData) (m : MatrixItem)
        (fuel : Nat) (r : ListCertificatesRequest),
      r ∈ requests (listCertificatesManagementCertificates certificatesManagementService d m fuel).trace →
      (d.Limit = none → r.Limit = some 20)
      ∧ (∀ L, d.Limit = some L → 20 ≤ L → r.Limit = some 20)
      ∧ (∀ L, d.Limit = some L → L < 20 → r.Limit = some L)
      ∧ (∀ L, d.Limit = some L → r.Limit = some (min 20 L))) := by
  refine ⟨?_, ?_, ?_⟩
  · intro svc d m fuel r hr
    apply clamped_limit_cases 100 d.Limit r.Limit
    unfold listArtifactsContainerRepositories at hr
    simp only at hr
    by_cases hcond : ((d.KeyColumnQuals.index "compartment_id").isSome
        && m.compartment != GetStringValue (d.KeyColumnQuals.index "compartment_id")) = true
    · simp only [hcond, if_true, requests] at hr
      simp at hr
    · simp only [hcond, Bool.false_eq_true, if_false] at hr
      cases hsvc : svc m.region with
      | error err =>
        simp only [hsvc, requests] at hr
        simp at hr
      | ok session =>
        simp only [hsvc, requests] at hr
        rw [pageLoop_requests_field session.ListContainerRepositories
          (fun req page => { req with Page := page }) d.RowsRemaining (fun q => q.Limit)
          (fun _ _ => rfl) fuel 0 0 _ r hr]
        cases d.Limit with
        | none => rfl
        | some L => by_cases hL : L < 100 <;> simp [hL]
  · intro svc d m fuel r hr
    apply clamped_limit_cases 20 d.Limit r.Limit
    unfold listCertificatesManagementAssociations at hr
    simp only at hr
    by_cases hcond : ((d.KeyColumnQuals.index "compartment_id").isSome
        && m.compartment != GetStringValue (d.KeyColumnQuals.index "compartment_id")) = true
    · simp only [hcond, if_true, requests] at hr
      simp at hr
    · simp only [hcond, Bool.false_eq_true, if_false] at hr
      cases hsvc : svc m.region with
      | error err =>
        simp only [hsvc, requests] at hr
        simp at hr
      | ok session =>
        simp only [hsvc, requests] at hr
        rw [pageLoop_requests_field session.ListAssociations
          (fun req page => { req with Page := page }) d.RowsRemaining (fun q => q.Limit)
          (fun _ _ => rfl) fuel 0 0 _ r hr]
        cases d.Limit with
        | none => rfl
        | some L => by_cases hL : L < 20 <;> simp [hL]
  · intro svc d m fuel r hr
    apply clamped_limit_cases 20 d.Limit r.Limit
    unfold listCertificatesManagementCertificates at hr
    simp only at hr
    by_cases hcond : ((d.KeyColumnQuals.index "compartment_id").isSome
        && m.compartment != GetStringValue (d.KeyColumnQuals.index "compartment_id")) = true
    · simp only [hcond, if_true, requests] at hr
      simp at hr
    · simp only [hcond, Bool.false_eq_true, if_false] at hr
      cases hsvc : svc m.region with
      | error err =>
        simp only [hsvc, requests] at hr
        simp at hr
      | ok session =>
        simp only [hsvc, requests] at hr
        rw [pageLoop_requests_field session.ListCertificates
          (fun req page => { req with Page := page }) d.RowsRemaining (fun q => q.Limit)
          (fun _ _ => rfl) fuel 0 0 _ r hr]
        cases d.Limit with
        | none => rfl
        | some L => by_cases hL : L < 20 <;> simp [hL]

/-- Witness for C11: with `LIMIT 5` every sample request asks for pages of five items. -/
theorem list_page_size_is_clamped_default_witness :
    ({ sampleRepositoryRequest with Limit := some 5 } : ListContainerRepositoriesRequest)
        ∈ requests (listArtifactsContainerRepositories (fun _ => .ok sampleArtifactsSession)
            (sampleLimitedQuery [] 5 5) sampleMatrix 7).trace
    ∧ ({ sampleRepositoryRequest with Limit := some 5 }
        : ListContainerRepositoriesRequest).Limit = some (min 100 5)
    ∧ ({ sampleAssociationRequest with Limit := some 5 } : ListAssociationsRequest).Limit
        = some (min 20 5)
    ∧ ({ sampleCertificateRequest with Limit := some 5 } : ListCertificatesRequest).Limit
        = some (min 20 5) :=
  ⟨by decide,
    (list_page_size_is_clamped_default.1 (fun _ => .ok sampleArtifactsSession)
      (sampleLimitedQuery [] 5 5) sampleMatrix 7 _ (by decide)).2.2.2 5 rfl,
    (list_page_size_is_clamped_default.2.1 (fun _ => .ok sampleCertificatesSession)
      (sampleLimitedQuery [] 5 5) sampleMatrix 7
      { sampleAssociationRequest with Limit := some 5 } (by decide)).2.2.2 5 rfl,
    (list_page_size_is_clamped_default.2.2 (fun _ => .ok sampleCertificatesSession)
      (sampleLimitedQuery [] 5 5) sampleMatrix 7
      { sampleCertificateRequest with Limit := some 5 } (by decide)).2.2.2 5 rfl⟩

/-- C13: every provider list request a list handler issues carries the iterated matrix
compartment as compartment identifier, whatever the filter builder copied from the
`compartment_id` filter; hence, when a `compartment_id` filter was supplied and a request
is issued, the request's compartment equals the filter value. -/
theorem list_requests_carry_matrix_compartment :
    (∀ (artifactsService : String → Except Error ArtifactsSession) (d : QueryData) (m : MatrixItem)
        (fuel : Nat) (r : ListContainerRepositoriesRequest),
      r ∈ requests (listArtifactsContainerRepositories artifactsService d m fuel).trace →
      r.CompartmentId = some m.compartment
      ∧ (∀ q, d.KeyColumnQuals.index "compartment_id" = some q →
          r.CompartmentId = some (GetStringValue (some q))))
    ∧ (∀ (certificatesManagementService : String → Except Error CertificatesManagementSession) (d : QueryData) (m : MatrixItem)
        (fuel : Nat) (r : ListAssociationsRequest),
      r ∈ requests (listCertificatesManagementAssociations certificatesManagementService d m fuel).trace →
      r.CompartmentId = some m.compartment
      ∧ (∀ q, d.KeyColumnQuals.index "compartment_id" = some q →
          r.CompartmentId = some (GetStringValue (some q))))
    ∧ (∀ (certificatesManagementService : String → Except Error CertificatesManagementSession) (d : QueryData) (m : MatrixItem)
        (fuel : Nat) (r : ListCertificatesRequest),
      r ∈ requests (listCertificatesManagementCertificates certificatesManagementService d m fuel).trace →
      r.CompartmentId = some m.compartment
      ∧ (∀ q, d.KeyColumnQuals.index "compartment_id" = some q →
          r.CompartmentId = some (GetStringValue (some q)))) := by
  refine ⟨?_, ?_, ?_⟩
  · intro svc d m fuel r hr
    unfold listArtifactsContainerRepositories at hr
    simp only at hr
    by_cases hcond : ((d.KeyColumnQuals.index "compartment_id").isSome
        && m.compartment != GetStringValue (d.KeyColumnQuals.index "compartment_id")) = true
    · simp only [hcond, if_true, requests] at hr
      simp at hr
    · simp only [hcond, Bool.false_eq_true, if_false] at hr
      cases hsvc : svc m.region with
      | error err =>
        simp only [hsvc, requests] at hr
        simp at hr
      | ok session =>
        simp only [hsvc, requests] at hr
        have hc : r.CompartmentId = some m.compartment := by
          rw [pageLoop_requests_field session.ListContainerRepositories
            (fun req page => { req with Page := page }) d.RowsRemaining
            (fun q => q.CompartmentId) (fun _ _ => rfl) fuel 0 0 _ r hr]
          cases d.Limit with
          | none => rfl
          | some L => by_cases hL : L < 100 <;> simp [hL]
        refine ⟨hc, ?_⟩
        intro q hq
        rw [hc]
        rw [hq] at hcond
        simpa using hcond
  · intro svc d m fuel r hr
    unfold listCertificatesManagementAssociations at hr
    simp only at hr
    by_cases hcond : ((d.KeyColumnQuals.index "compartment_id").isSome
        && m.compartment != GetStringValue (d.KeyColumnQuals.index "compartment_id")) = true
    · simp only [hcond, if_true, requests] at hr
      simp at hr
    · simp only [hcond, Bool.false_eq_true, if_false] at hr
      cases hsvc : svc m.region with
      | error err =>
        simp only [hsvc, requests] at hr
        simp at hr
      | ok session =>
        simp only [hsvc, requests] at hr
        have hc : r.CompartmentId = some m.compartment := by
          rw [pageLoop_requests_field session.ListAssociations
            (fun req page => { req with Page := page }) d.RowsRemaining
            (fun q => q.CompartmentId) (fun _ _ => rfl) fuel 0 0 _ r hr]
          cases d.Limit with
          | none => rfl
          | some L => by_cases hL : L < 20 <;> simp [hL]
        refine ⟨hc, ?_⟩
        intro q hq
        rw [hc]
        rw [hq] at hcond
        simpa using hcond
  · intro svc d m fuel r hr
    unfold listCertificatesManagementCertificates at hr
    simp only at hr
    by_cases hcond : ((d.KeyColumnQuals.index "compartment_id").isSome
        && m.compartment != GetStringValue (d.KeyColumnQuals.index "compartment_id")) = true
    · simp only [hcond, if_true, requests] at hr
      simp at hr
    · simp only [hcond, Bool.false_eq_true, if_false] at hr
      cases hsvc : svc m.region with
      | error err =>
        simp only [hsvc, requests] at hr
        simp at hr
      | ok session =>
        simp only [hsvc, requests] at hr
        have hc : r.CompartmentId = some m.compartment := by
          rw [pageLoop_requests_field session.ListCertificates
            (fun req page => { req with Page := page }) d.RowsRemaining
            (fun q => q.CompartmentId) (fun _ _ => rfl) fuel 0 0 _ r hr]
          cases d.Limit with
          | none => rfl
          | some L => by_cases hL : L < 20 <;> simp [hL]
        refine ⟨hc, ?_⟩
        intro q hq
        rw [hc]
        rw [hq] at hcond
        simpa using hcond

/-- Witness for C13: a filter on the iterated compartment itself; the first request of
each sample run carries that compartment. -/
theorem list_requests_carry_matrix_compartment_witness :
    sampleRepositoryRequest.CompartmentId = some sampleMatrix.compartment
    ∧ sampleAssociationRequest.CompartmentId = some sampleMatrix.compartment
    ∧ sampleCertificateRequest.CompartmentId = some sampleMatrix.compartment :=
  ⟨(list_requests_carry_matrix_compartment.1 (fun _ => .ok sampleArtifactsSession)
      (sampleQuery [("compartment_id", .StringValue "ocid1.compartment.oc1..b")] 5)
      sampleMatrix 7 sampleRepositoryRequest (by decide)).1,
    (list_requests_carry_matrix_compartment.2.1 (fun _ => .ok sampleCertificatesSession)
      (sampleQuery [("compartment_id", .StringValue "ocid1.compartment.oc1..b")] 5)
      sampleMatrix 7 sampleAssociationRequest (by decide)).1,
    (list_requests_carry_matrix_compartment.2.2 (fun _ => .ok sampleCertificatesSession)
      (sampleQuery [("compartment_id", .StringValue "ocid1.compartment.oc1..b")] 5)
      sampleMatrix 7 sampleCertificateRequest (by decide)).1⟩

/-! ## Further claims about the single-item fetchers -/

/-- C12: on an input that is not short-circuited (for `getArtifactsContainerRepository`: a
hydrated summary item or the tenancy root compartment, and a non-empty identifier; for
`getCertificatesManagementAssociation`: the tenancy root compartment; for
`getCertificatesManagementCertificate`: a hydrated summary item or the tenancy root
compartment) and for which session creation succeeds, each fetcher issues exactly one
provider get request, whose identifier is the id of the hydrated summary item when one is
present and the value of the `id` filter otherwise, and returns the provider's record
with no error when the call succeeds and the provider's error with no record when it
fails. -/
theorem get_issues_one_request_and_returns_answer :
    (∀ (artifactsService : String → Except Error ArtifactsSession) (d : QueryData)
        (h : HydrateData) (m : MatrixItem) (session : ArtifactsSession) (id : String),
      artifactsService m.region = .ok session →
      (h.Item = some (.containerRepositorySummary ⟨some id⟩)
        ∨ (h.Item = none ∧ HasPrefix m.compartment "ocid1.tenancy.oc1" = true
            ∧ id = GetStringValue (d.KeyColumnQuals.index "id"))) →
      id ≠ "" →
      (getArtifactsContainerRepository artifactsService d h m).trace
          = [.session m.region,
              .request { RepositoryId := some id,
                         RequestMetadata := { RetryPolicy := d.retryPolicy } }]
      ∧ (getArtifactsContainerRepository artifactsService d h m).status
          = returnOf (session.GetContainerRepository
              { RepositoryId := some id, RequestMetadata := { RetryPolicy := d.retryPolicy } }))
    ∧ (∀ (certificatesManagementService : String → Except Error CertificatesManagementSession)
        (d : QueryData) (h : HydrateData) (m : MatrixItem)
        (session : CertificatesManagementSession) (id : Option String),
      certificatesManagementService m.region = .ok session →
      HasPrefix m.compartment "ocid1.tenancy.oc1" = true →
      ((∃ obj : AssociationSummary, h.Item = some (.associationSummary obj) ∧ id = obj.Id)
        ∨ (h.Item = none ∧ id = some (GetStringValue (d.KeyColumnQuals.index "id")))) →
      (getCertificatesManagementAssociation certificatesManagementService d h m).trace
          = [.session m.region,
              .request { AssociationId := id,
                         RequestMetadata := { RetryPolicy := d.retryPolicy } }]
      ∧ (getCertificatesManagementAssociation certificatesManagementService d h m).status
          = returnOf (session.GetAssociation
              { AssociationId := id, RequestMetadata := { RetryPolicy := d.retryPolicy } }))
    ∧ (∀ (certificatesManagementService : String → Except Error CertificatesManagementSession)
        (d : QueryData) (h : HydrateData) (m : MatrixItem)
        (session : CertificatesManagementSession) (id : Option String),
      certificatesManagementService m.region = .ok session →
      ((∃ obj : CertificateSummary, h.Item = some (.certificateSummary obj) ∧ id = obj.Id)
        ∨ (h.Item = none ∧ HasPrefix m.compartment "ocid1.tenancy.oc1" = true
            ∧ id = some (GetStringValue (d.KeyColumnQuals.index "id")))) →
      (getCertificatesManagementCertificate certificatesManagementService d h m).trace
          = [.session m.region,
              .request { CertificateId := id,
                         RequestMetadata := { RetryPolicy := d.retryPolicy } }]
      ∧ (getCertificatesManagementCertificate certificatesManagementService d h m).status
          = returnOf (session.GetCertificate
              { CertificateId := id, RequestMetadata := { RetryPolicy := d.retryPolicy } })) := by
  refine ⟨?_, ?_, ?_⟩
  · intro svc d h m session id hsvc hin hid
    have hby : getArtifactsContainerRepositoryById svc d m id
        = ⟨[.session m.region,
              .request { RepositoryId := some id,
                         RequestMetadata := { RetryPolicy := d.retryPolicy } }],
            returnOf (session.GetContainerRepository
              { RepositoryId := some id,
                RequestMetadata := { RetryPolicy := d.retryPolicy } })⟩ := by
      unfold getArtifactsContainerRepositoryById
      simp only [hid, if_false, hsvc]
      cases session.GetContainerRepository
        { RepositoryId := some id, RequestMetadata := { RetryPolicy := d.retryPolicy } } <;> rfl
    have hout : getArtifactsContainerRepository svc d h m
        = getArtifactsContainerRepositoryById svc d m id := by
      unfold getArtifactsContainerRepository
      rcases hin with hitem | ⟨hitem, hroot, hidq⟩
      · simp only [hitem]
      · simp only [hitem, hroot, Bool.not_true, Bool.false_eq_true, if_false, hidq]
    rw [hout, hby]
    exact ⟨rfl, rfl⟩
  · intro svc d h m session id hsvc hroot hin
    have hbuild : buildGetCertificatesManagementAssociationFilters d.KeyColumnQuals h
        = some { AssociationId := id } := by
      unfold buildGetCertificatesManagementAssociationFilters
      rcases hin with ⟨obj, hitem, hidq⟩ | ⟨hitem, hidq⟩
      · simp only [hitem, hidq]
      · simp only [hitem, hidq]
    unfold getCertificatesManagementAssociation
    simp only [hroot, Bool.not_true, Bool.false_eq_true, if_false, hbuild, hsvc]
    cases session.GetAssociation
      { AssociationId := id, RequestMetadata := { RetryPolicy := d.retryPolicy } } <;>
      exact ⟨rfl, rfl⟩
  · intro svc d h m session id hsvc hin
    have hbuild : buildGetCertificatesManagementCertificateFilters d.KeyColumnQuals h
        = some { CertificateId := id } := by
      unfold buildGetCertificatesManagementCertificateFilters
      rcases hin with ⟨obj, hitem, hidq⟩ | ⟨hitem, _, hidq⟩
      · simp only [hitem, hidq]
      · simp only [hitem, hidq]
    have hcheck : (h.Item.isNone && !HasPrefix m.compartment "ocid1.tenancy.oc1") = false := by
      rcases hin with ⟨obj, hitem, _⟩ | ⟨_, hroot, _⟩
      · simp [hitem]
      · simp [hroot]
    unfold getCertificatesManagementCertificate
    simp only [hcheck, Bool.false_eq_true, if_false, hbuild, hsvc]
    cases session.GetCertificate
      { CertificateId := id, RequestMetadata := { RetryPolicy := d.retryPolicy } } <;>
      exact ⟨rfl, rfl⟩

/-- Witness for C12: raw get calls in the tenancy root compartment against the sample
providers, which answer with a record carrying the requested identifier. -/
theorem get_issues_one_request_and_returns_answer_witness :
    ((getArtifactsContainerRepository (fun _ => .ok sampleArtifactsSession)
          (sampleQuery [("id", .StringValue "ocid1.containerrepo.oc1..x")] 5) rawGet
          rootMatrix).trace
        = [.session "us-ashburn-1",
            .request { RepositoryId := some "ocid1.containerrepo.oc1..x",
                       RequestMetadata := { RetryPolicy := some ⟨3⟩ } }]
      ∧ (getArtifactsContainerRepository (fun _ => .ok sampleArtifactsSession)
          (sampleQuery [("id", .StringValue "ocid1.containerrepo.oc1..x")] 5) rawGet
          rootMatrix).status
        = .returned (some ⟨some "ocid1.containerrepo.oc1..x"⟩) none)
    ∧ ((getCertificatesManagementAssociation (fun _ => .ok failingCertificatesSession)
          (sampleQuery [("id", .StringValue "ocid1.certificateassociation.oc1..x")] 5) rawGet
          rootMatrix).trace
        = [.session "us-ashburn-1",
            .request { AssociationId := some "ocid1.certificateassociation.oc1..x",
                       RequestMetadata := { RetryPolicy := some ⟨3⟩ } }]
      ∧ (getCertificatesManagementAssociation (fun _ => .ok failingCertificatesSession)
          (sampleQuery [("id", .StringValue "ocid1.certificateassociation.oc1..x")] 5) rawGet
          rootMatrix).status
        = .returned none (some "ServiceUnavailable"))
    ∧ ((getCertificatesManagementCertificate (fun _ => .ok sampleCertificatesSession)
          (sampleQuery [] 5)
          ⟨some (.certificateSummary ⟨some "ocid1.certificate.oc1..x", none, none⟩)⟩
          sampleMatrix).trace
        = [.session "us-ashburn-1",
            .request { CertificateId := some "ocid1.certificate.oc1..x",
                       RequestMetadata := { RetryPolicy := some ⟨3⟩ } }]
      ∧ (getCertificatesManagementCertificate (fun _ => .ok sampleCertificatesSession)
          (sampleQuery [] 5)
          ⟨some (.certificateSummary ⟨some "ocid1.certificate.oc1..x", none, none⟩)⟩
          sampleMatrix).status
        = .returned (some ⟨some "ocid1.certificate.oc1..x", none, none⟩) none) :=
  ⟨get_issues_one_request_and_returns_answer.1 (fun _ => .ok sampleArtifactsSession)
      (sampleQuery [("id", .StringValue "ocid1.containerrepo.oc1..x")] 5) rawGet rootMatrix
      sampleArtifactsSession "ocid1.containerrepo.oc1..x" rfl
      (Or.inr ⟨rfl, by decide, by decide⟩) (by decide),
    get_issues_one_request_and_returns_answer.2.1 (fun _ => .ok failingCertificatesSession)
      (sampleQuery [("id", .StringValue "ocid1.certificateassociation.oc1..x")] 5) rawGet
      rootMatrix failingCertificatesSession (some "ocid1.certificateassociation.oc1..x") rfl
      (by decide) (Or.inr ⟨rfl, by decide⟩),
    get_issues_one_request_and_returns_answer.2.2 (fun _ => .ok sampleCertificatesSession)
      (sampleQuery [] 5)
      ⟨some (.certificateSummary ⟨some "ocid1.certificate.oc1..x", none, none⟩)⟩ sampleMatrix
      sampleCertificatesSession (some "ocid1.certificate.oc1..x") rfl
      (Or.inl ⟨_, rfl, rfl⟩)⟩

/-- C15: in a get call by raw identifier (no hydrated item), whenever the active
compartment does not start with `ocid1.tenancy.oc1`, each of the three fetchers returns
`(nil, nil)` without any effect (no session, no provider call), whatever the `id` filter;
with a hydrated summary item, `getArtifactsContainerRepository` (for a non-empty item id)
and `getCertificatesManagementCertificate` skip the compartment check: even in such a
compartment they create the session and issue the provider get request for the item's
id. -/
theorem get_compartment_check_only_for_raw_get
    (artifactsService : String → Except Error ArtifactsSession)
    (certificatesManagementService : String → Except Error CertificatesManagementSession)
    (d : QueryData) (m : MatrixItem)
    (hroot : HasPrefix m.compartment "ocid1.tenancy.oc1" = false) :
    (getArtifactsContainerRepository artifactsService d ⟨none⟩ m = ⟨[], .returned none none⟩
      ∧ getCertificatesManagementAssociation certificatesManagementService d ⟨none⟩ m
          = ⟨[], .returned none none⟩
      ∧ getCertificatesManagementCertificate certificatesManagementService d ⟨none⟩ m
          = ⟨[], .returned none none⟩)
    ∧ (∀ (session : ArtifactsSession) (id : String),
        artifactsService m.region = .ok session → id ≠ "" →
        (getArtifactsContainerRepository artifactsService d
            ⟨some (.containerRepositorySummary ⟨some id⟩)⟩ m).trace
          = [.session m.region,
              .request { RepositoryId := some id,
                         RequestMetadata := { RetryPolicy := d.retryPolicy } }])
    ∧ (∀ (session : CertificatesManagementSession) (obj : CertificateSummary),
        certificatesManagementService m.region = .ok session →
        (getCertificatesManagementCertificate certificatesManagementService d
            ⟨some (.certificateSummary obj)⟩ m).trace
          = [.session m.region,
              .request { CertificateId := obj.Id,
                         RequestMetadata := { RetryPolicy := d.retryPolicy } }]) := by
  refine ⟨⟨?_, ?_, ?_⟩, ?_, ?_⟩
  · unfold getArtifactsContainerRepository
    simp [hroot]
  · unfold getCertificatesManagementAssociation
    simp [hroot]
  · unfold getCertificatesManagementCertificate
    simp [hroot]
  · intro session id hsvc hid
    unfold getArtifactsContainerRepository getArtifactsContainerRepositoryById
    simp only [hid, if_false, hsvc]
    cases session.GetContainerRepository
      { RepositoryId := some id, RequestMetadata := { RetryPolicy := d.retryPolicy } } <;> rfl
  · intro session obj hsvc
    unfold getCertificatesManagementCertificate
      buildGetCertificatesManagementCertificateFilters
    simp only [Option.isNone_some, Bool.false_and, Bool.false_eq_true, if_false, hsvc]
    cases session.GetCertificate
      { CertificateId := obj.Id, RequestMetadata := { RetryPolicy := d.retryPolicy } } <;> rfl

/-- Witness for C15: compartment `..b` is not the tenancy root. -/
theorem get_compartment_check_only_for_raw_get_witness :
    HasPrefix sampleMatrix.compartment "ocid1.tenancy.oc1" = false
    ∧ getArtifactsContainerRepository (fun _ => .ok sampleArtifactsSession)
        (sampleQuery [("id", .StringValue "ocid1.containerrepo.oc1..x")] 5) ⟨none⟩ sampleMatrix
      = ⟨[], .returned none none⟩
    ∧ (getArtifactsContainerRepository (fun _ => .ok sampleArtifactsSession)
        (sampleQuery [("id", .StringValue "ocid1.containerrepo.oc1..x")] 5)
        ⟨some (.containerRepositorySummary ⟨some "ocid1.containerrepo.oc1..y"⟩)⟩
        sampleMatrix).trace
      = [.session "us-ashburn-1",
          .request { RepositoryId := some "ocid1.containerrepo.oc1..y",
                     RequestMetadata := { RetryPolicy := some ⟨3⟩ } }] :=
  have key := get_compartment_check_only_for_raw_get (fun _ => .ok sampleArtifactsSession)
    (fun _ => .ok sampleCertificatesSession)
    (sampleQuery [("id", .StringValue "ocid1.containerrepo.oc1..x")] 5) sampleMatrix
    (by decide)
  ⟨by decide, key.1.1,
    key.2.1 sampleArtifactsSession "ocid1.containerrepo.oc1..y" rfl (by decide)⟩

/-! ## Claims about the connection configuration -/

/-- C14: `GetConfig` returns the zero-valued `ociConfig` when the connection is absent,
when the connection's config is absent, and when the stored config is not an `ociConfig`
value, a pointer to an `ociConfig` included, which is what `ConfigInstance` produces; it
returns the stored configuration unchanged when the connection holds an `ociConfig`
value.  It has a result on every input. -/
theorem GetConfig_total_and_zero_unless_value :
    GetConfig none = {}
    ∧ (∀ name, GetConfig (some ⟨name, none⟩) = {})
    ∧ (∀ name pointee, GetConfig (some ⟨name, some (.pointer pointee)⟩) = {})
    ∧ (∀ name, GetConfig (some ⟨name, some ConfigInstance⟩) = {})
    ∧ (∀ name description, GetConfig (some ⟨name, some (.other description)⟩) = {})
    ∧ (∀ name config, GetConfig (some ⟨name, some (.value config)⟩) = config)
    ∧ (∀ connection, ∃ config, GetConfig connection = config
        ∧ (config = {} ∨ ∃ name, connection = some ⟨name, some (.value config)⟩)) := by
  refine ⟨rfl, fun _ => rfl, fun _ _ => rfl, fun _ => rfl, fun _ _ => rfl, fun _ _ => rfl, ?_⟩
  intro connection
  refine ⟨GetConfig connection, rfl, ?_⟩
  cases connection with
  | none => exact Or.inl rfl
  | some conn =>
    obtain ⟨name, stored⟩ := conn
    cases stored with
    | none => exact Or.inl rfl
    | some v =>
      cases v with
      | value config => exact Or.inr ⟨name, rfl⟩
      | pointer pointee => exact Or.inl rfl
      | other description => exact Or.inl rfl

end Oci
